import Mathlib

/-!
Verification development for the QOI (Quite OK Image) codec implemented in
`src/file-qoi.c` of the gimp-file-qoi plug-in.

The codec core (`load_image` and `save_image`, minus the file I/O and the
GIMP progress/UI calls) is embedded shallowly:

* a file is a `List Nat` of bytes; reading the byte at an index goes through
  `byteAt`, which reduces modulo 256 (memory holds octets);
* `guint8` pixel channels are `Nat` values; the C increments
  `current_pixel.red += dr` (wrap-around at 256) become `byteAdd`, which adds
  the signed delta and reduces modulo 256;
* the `while` loops become fuel-indexed recursions.  One loop iteration of
  the decoder always produces at least one pixel and one iteration of the
  encoder always consumes at least one, so fuel `width * height` is always
  sufficient; the fuel-zero branches are unreachable for the fuel the top
  level passes;
* the decoder walks the byte list by dropping consumed bytes instead of
  incrementing `file_index`; the remaining list corresponds to
  `file_data[file_index ..]`.  The end-of-loop trailer checks operate on the
  remaining list exactly as the C operates on `file_index`/`file_size`;
* the error `return false` paths are labelled with the error kind of the
  `g_message` call at each site.
-/

/-- One RGBA pixel: four `guint8` channels (C struct `QoiPixel`). -/
structure QoiPixel where
  red : Nat
  green : Nat
  blue : Nat
  alpha : Nat
deriving DecidableEq, Repr

/-- A decoded image (C struct `QoiImage`); `colorspace` holds the raw tag. -/
structure QoiImage where
  pixels : List QoiPixel
  width : Nat
  height : Nat
  colorspace : Nat
  has_alpha : Bool
deriving DecidableEq, Repr

/-- Error kinds, one per `g_message`-and-`return false` site of the decoder
(`allocationFailure` is the "Failed to acquire storage for pixels." site at
line 189, reached deterministically when the requested size is zero). -/
inductive QoiError where
  | unexpectedEof
  | badMagic
  | unsupportedChannels
  | unsupportedColorspace
  | invalidDimensions
  | allocationFailure
  | invalidRunLength
  | invalidEndMarker
  | trailingData
deriving DecidableEq, Repr

def QOI_HEADER_SIZE : Nat := 14
def QOI_END_MARKER_SIZE : Nat := 8
def QOI_MAX_BYTES_PER_PIXEL : Nat := 5

def QOI_CHANNELS_RGB : Nat := 3
def QOI_CHANNELS_RGBA : Nat := 4

def QOI_SMALL_TAG_MASK : Nat := 0xC0
def QOI_OP_RGB : Nat := 0xFE
def QOI_OP_RGBA : Nat := 0xFF
def QOI_OP_INDEX : Nat := 0x00
def QOI_OP_DIFF : Nat := 0x40
def QOI_OP_LUMA : Nat := 0x80
def QOI_OP_RUN : Nat := 0xC0

def QOI_MAX_RUN_LENGTH : Nat := 62
def QOI_DIFF_LOWER_BOUND : Int := -2
def QOI_DIFF_UPPER_BOUND : Int := 1
def QOI_LUMA_GREEN_LOWER_BOUND : Int := -32
def QOI_LUMA_GREEN_UPPER_BOUND : Int := 31
def QOI_LUMA_RED_BLUE_LOWER_BOUND : Int := -8
def QOI_LUMA_RED_BLUE_UPPER_BOUND : Int := 7

/-- The 8 reserved trailer bytes (C array `QOI_END_MARKER`). -/
def QOI_END_MARKER : List Nat := [0x00, 0x00, 0x00, 0x00, 0x00, 0x00, 0x00, 0x01]

/-- `GIMP_MAX_IMAGE_SIZE` from libgimpbase, the dimension bound `load_image`
enforces. -/
def GIMP_MAX_IMAGE_SIZE : Nat := 524288

/-- `2^32`, the modulus of `guint32` arithmetic.  `width` and `height` are
`guint32` fields, so the products `result->width * result->height`
(line 195), `image.width * image.height` (lines 318 and 339) and the
encoder's allocation-size sum (lines 316-320) are computed modulo this
before any widening to `guint64`/`gsize`. -/
def UINT32_MOD : Nat := 4294967296

/-- The zero pixel `(0,0,0,0)`: the initial value of every cache slot
(`QoiPixel array[64] = { 0 }`). -/
def qoiZeroPixel : QoiPixel := ⟨0, 0, 0, 0⟩

/-- The initial previous-pixel register `{ .alpha = 255 }` = `(0,0,0,255)`. -/
def qoiInitPixel : QoiPixel := ⟨0, 0, 0, 255⟩

/-- Reading byte `i` of the file: memory holds octets, so the value is
reduced modulo 256. Out-of-range indices default to 0 (the C never reads
out of range on the paths modelled, thanks to the in-loop EOF check). -/
def byteAt (data : List Nat) (i : Nat) : Nat :=
  data.getD i 0 % 256

/-- A `guint8 += gint` update: add the signed delta and wrap at 256
(C unsigned-char arithmetic). -/
def byteAdd (c : Nat) (d : Int) : Nat :=
  (((c : Int) + d) % 256).toNat

/-- C `qoi_pixel_equal`: component-wise equality of all four channels. -/
def qoi_pixel_equal (a b : QoiPixel) : Bool :=
  a.red == b.red && a.green == b.green && a.blue == b.blue && a.alpha == b.alpha

/-- C `qoi_pixel_hash`: `(r*3 + g*5 + b*7 + a*11) % 64`. -/
def qoi_pixel_hash (p : QoiPixel) : Nat :=
  (p.red * 3 + p.green * 5 + p.blue * 7 + p.alpha * 11) % 64

/-- `memcmp(&file_data[i], QOI_END_MARKER, 8) == 0` at the head of the
remaining byte list. -/
def endMarkerAt (rest : List Nat) : Bool :=
  (rest.take QOI_END_MARKER_SIZE).map (fun b => b % 256) == QOI_END_MARKER

/-- Big-endian 32-bit read at offset `i`: the header `guint32` fields are
stored big-endian on the wire; the C reads the native word and swaps it with
`guint32_swap_local_and_big_endian`, which composes to this value. -/
def readBE32 (data : List Nat) (i : Nat) : Nat :=
  byteAt data i * 16777216 + byteAt data (i + 1) * 65536 +
    byteAt data (i + 2) * 256 + byteAt data (i + 3)

/-- Big-endian bytes of a 32-bit value: how a header `guint32` field lands in
the file after `guint32_swap_local_and_big_endian` and the struct store. -/
def writeBE32 (v : Nat) : List Nat :=
  [v / 16777216 % 256, v / 65536 % 256, v / 256 % 256, v % 256]

/-- Prefix decoded pixels onto the result of the rest of the decode loop
(the loop writes into `result->pixels[pixel_index++]`; here the pixels
produced by one iteration are prepended to those of the later iterations). -/
def prependPixels (ps : List QoiPixel) :
    Except QoiError (List QoiPixel × List Nat) →
    Except QoiError (List QoiPixel × List Nat)
  | Except.error e => Except.error e
  | Except.ok r => Except.ok (ps ++ r.1, r.2)

/-- The decoder's chunk loop (`while (pixel_index < max_pixel_index)` of
`load_image`, lines 198-278).  `rest` is `file_data[file_index ..]`; the
result carries the decoded pixels of the remaining iterations together with
the bytes remaining at loop exit (the final `file_index` position).  `fuel`
bounds the number of iterations; every iteration produces at least one
pixel, so the callers' fuel `maxPixelIndex` never runs out. -/
def decodeLoop (maxPixelIndex : Nat) (fuel : Nat) (rest : List Nat)
    (pixelIndex : Nat) (currentPixel : QoiPixel) (cache : List QoiPixel) :
    Except QoiError (List QoiPixel × List Nat) :=
  match fuel with
  | 0 =>
    if pixelIndex < maxPixelIndex then Except.error QoiError.unexpectedEof
    else Except.ok ([], rest)
  | fuel + 1 =>
    if pixelIndex < maxPixelIndex then
      -- Make sure there is enough file data for the end marker, as that means
      -- there is enough data for any of the chunks as well.
      if rest.length < QOI_END_MARKER_SIZE then Except.error QoiError.unexpectedEof
      else
        let tag := byteAt rest 0
        if tag = QOI_OP_RGB then
          let p : QoiPixel :=
            ⟨byteAt rest 1, byteAt rest 2, byteAt rest 3, currentPixel.alpha⟩
          prependPixels [p]
            (decodeLoop maxPixelIndex fuel (rest.drop 4) (pixelIndex + 1) p
              (cache.set (qoi_pixel_hash p) p))
        else if tag = QOI_OP_RGBA then
          let p : QoiPixel :=
            ⟨byteAt rest 1, byteAt rest 2, byteAt rest 3, byteAt rest 4⟩
          prependPixels [p]
            (decodeLoop maxPixelIndex fuel (rest.drop 5) (pixelIndex + 1) p
              (cache.set (qoi_pixel_hash p) p))
        else if tag &&& QOI_SMALL_TAG_MASK = QOI_OP_INDEX then
          -- There might be an end marker here as this chunk could be a 0 byte
          -- which is the same byte the end marker starts with.  On a match the
          -- C breaks with file_index already one past the tag byte.
          if endMarkerAt rest then Except.ok ([], rest.drop 1)
          else
            let p := cache.getD (tag &&& 0x3F) qoiZeroPixel
            prependPixels [p]
              (decodeLoop maxPixelIndex fuel (rest.drop 1) (pixelIndex + 1) p cache)
        else if tag &&& QOI_SMALL_TAG_MASK = QOI_OP_DIFF then
          let dr : Int := (((tag >>> 4) &&& 0x03 : Nat) : Int) + QOI_DIFF_LOWER_BOUND
          let dg : Int := (((tag >>> 2) &&& 0x03 : Nat) : Int) + QOI_DIFF_LOWER_BOUND
          let db : Int := (((tag >>> 0) &&& 0x03 : Nat) : Int) + QOI_DIFF_LOWER_BOUND
          let p : QoiPixel :=
            ⟨byteAdd currentPixel.red dr, byteAdd currentPixel.green dg,
              byteAdd currentPixel.blue db, currentPixel.alpha⟩
          prependPixels [p]
            (decodeLoop maxPixelIndex fuel (rest.drop 1) (pixelIndex + 1) p
              (cache.set (qoi_pixel_hash p) p))
        else if tag &&& QOI_SMALL_TAG_MASK = QOI_OP_LUMA then
          let dr_db := byteAt rest 1
          let dg : Int := ((tag &&& 0x3F : Nat) : Int) + QOI_LUMA_GREEN_LOWER_BOUND
          let dr : Int :=
            (((dr_db >>> 4) &&& 0x0F : Nat) : Int) + QOI_LUMA_RED_BLUE_LOWER_BOUND + dg
          let db : Int :=
            (((dr_db >>> 0) &&& 0x0F : Nat) : Int) + QOI_LUMA_RED_BLUE_LOWER_BOUND + dg
          let p : QoiPixel :=
            ⟨byteAdd currentPixel.red dr, byteAdd currentPixel.green dg,
              byteAdd currentPixel.blue db, currentPixel.alpha⟩
          prependPixels [p]
            (decodeLoop maxPixelIndex fuel (rest.drop 2) (pixelIndex + 1) p
              (cache.set (qoi_pixel_hash p) p))
        else if tag &&& QOI_SMALL_TAG_MASK = QOI_OP_RUN then
          let r := (tag &&& 0x3F) + 1
          -- Make sure there is enough space for all of the encoded pixels
          -- (the C comparison, kept exactly as written in the source).
          if pixelIndex > maxPixelIndex + r then Except.error QoiError.invalidRunLength
          else
            prependPixels (List.replicate r currentPixel)
              (decodeLoop maxPixelIndex fuel (rest.drop 1) (pixelIndex + r)
                currentPixel cache)
        else
          -- Unreachable: `tag &&& 0xC0` always equals one of the four cases.
          -- The C while-loop would continue with the next byte.
          decodeLoop maxPixelIndex fuel (rest.drop 1) pixelIndex currentPixel cache
    else Except.ok ([], rest)

/-- Header information extracted by `load_image` lines 136-185. -/
structure QoiHeaderInfo where
  has_alpha : Bool
  colorspace : Nat
  width : Nat
  height : Nat
deriving DecidableEq, Repr

/-- The header-parsing phase of `load_image` (lines 136-185): the EOF check,
magic comparison, channel switch, colorspace switch and the two dimension
checks, in the order of the source. -/
def parse_header (data : List Nat) : Except QoiError QoiHeaderInfo :=
  if data.length < QOI_HEADER_SIZE then Except.error QoiError.unexpectedEof
  else if ¬ (byteAt data 0 = 113 ∧ byteAt data 1 = 111 ∧
      byteAt data 2 = 105 ∧ byteAt data 3 = 102) then
    Except.error QoiError.badMagic
  else if ¬ (byteAt data 12 = QOI_CHANNELS_RGB ∨ byteAt data 12 = QOI_CHANNELS_RGBA) then
    Except.error QoiError.unsupportedChannels
  else if ¬ (byteAt data 13 = 0 ∨ byteAt data 13 = 1) then
    Except.error QoiError.unsupportedColorspace
  else
    let width := readBE32 data 4
    let height := readBE32 data 8
    if width = 0 ∨ width > GIMP_MAX_IMAGE_SIZE then
      Except.error QoiError.invalidDimensions
    else if height = 0 ∨ height > GIMP_MAX_IMAGE_SIZE then
      Except.error QoiError.invalidDimensions
    else
      Except.ok ⟨byteAt data 12 == QOI_CHANNELS_RGBA, byteAt data 13, width, height⟩

/-- C `load_image` minus the file I/O: header parsing, the pixel-buffer
allocation, the chunk loop, and the trailer checks (end-marker presence,
end-marker match, no trailing data), in the order of the source.

`max_pixel_index` (line 195) is `guint32 * guint32`: the product wraps
modulo `2^32` before it is widened to `guint64`.  The allocation at
line 187 requests `(width * height mod 2^32) * sizeof(QoiPixel)` bytes;
`g_try_malloc` returns `NULL` for a zero size, so a wrapped-to-zero pixel
count fails deterministically with "Failed to acquire storage for pixels."
(allocation failure for a nonzero size depends on the environment and is
modelled as success). -/
def load_image (data : List Nat) : Except QoiError QoiImage :=
  match parse_header data with
  | Except.error e => Except.error e
  | Except.ok hdr =>
    let maxPixelIndex := hdr.width * hdr.height % UINT32_MOD
    if maxPixelIndex = 0 then Except.error QoiError.allocationFailure
    else
    match decodeLoop maxPixelIndex maxPixelIndex (data.drop QOI_HEADER_SIZE) 0
        qoiInitPixel (List.replicate 64 qoiZeroPixel) with
    | Except.error e => Except.error e
    | Except.ok r =>
      if r.2.length < QOI_END_MARKER_SIZE then Except.error QoiError.unexpectedEof
      else if endMarkerAt r.2 = false then Except.error QoiError.invalidEndMarker
      else if r.2.length ≠ QOI_END_MARKER_SIZE then Except.error QoiError.trailingData
      else Except.ok ⟨r.1, hdr.width, hdr.height, hdr.colorspace, hdr.has_alpha⟩

/-- The encoder's run loop (`save_image` lines 347-361): the do-while that
extends the current run and flushes `QOI_OP_RUN` chunks of stored length
`run - 1` whenever the run reaches 62 or the run ends.  Returns the new
`pixel_index` and the emitted bytes.  One iteration always consumes one
pixel, so fuel `maxPixelIndex - pixelIndex` suffices. -/
def encodeRunLoop (pixels : List QoiPixel) (maxPixelIndex : Nat)
    (previousPixel : QoiPixel) (fuel : Nat) (pixelIndex run : Nat) :
    Nat × List Nat :=
  match fuel with
  | 0 => (pixelIndex, [])
  | fuel + 1 =>
    let run := run + 1
    let pixelIndex := pixelIndex + 1
    let processNext := decide (pixelIndex < maxPixelIndex) &&
      qoi_pixel_equal previousPixel (pixels.getD pixelIndex qoiZeroPixel)
    if run = QOI_MAX_RUN_LENGTH ∨ processNext = false then
      if processNext then
        let r := encodeRunLoop pixels maxPixelIndex previousPixel fuel pixelIndex 0
        (r.1, (QOI_OP_RUN ||| (run - 1)) :: r.2)
      else (pixelIndex, [QOI_OP_RUN ||| (run - 1)])
    else
      encodeRunLoop pixels maxPixelIndex previousPixel fuel pixelIndex run

/-- The encoder's chunk loop (`save_image` lines 342-415): for each pixel
position choose run / index / diff / luma / RGB literal / RGBA literal in
the priority order of the source, returning the emitted chunk bytes. -/
def encodeLoop (pixels : List QoiPixel) (maxPixelIndex : Nat) (hasAlpha : Bool)
    (fuel : Nat) (pixelIndex : Nat) (previousPixel : QoiPixel)
    (cache : List QoiPixel) : List Nat :=
  match fuel with
  | 0 => []
  | fuel + 1 =>
    if pixelIndex < maxPixelIndex then
      let currentPixel := pixels.getD pixelIndex qoiZeroPixel
      let hash := qoi_pixel_hash currentPixel
      if qoi_pixel_equal previousPixel currentPixel then
        let r := encodeRunLoop pixels maxPixelIndex previousPixel (fuel + 1) pixelIndex 0
        r.2 ++ encodeLoop pixels maxPixelIndex hasAlpha fuel r.1 previousPixel cache
      else if qoi_pixel_equal currentPixel (cache.getD hash qoiZeroPixel) then
        (QOI_OP_INDEX ||| hash) ::
          encodeLoop pixels maxPixelIndex hasAlpha fuel (pixelIndex + 1)
            currentPixel cache
      else if (!hasAlpha) || currentPixel.alpha == previousPixel.alpha then
        let dr : Int := (currentPixel.red : Int) - (previousPixel.red : Int)
        let dg : Int := (currentPixel.green : Int) - (previousPixel.green : Int)
        let db : Int := (currentPixel.blue : Int) - (previousPixel.blue : Int)
        let dr_dg : Int := dr - dg
        let db_dg : Int := db - dg
        let chunkBytes : List Nat :=
          if QOI_DIFF_LOWER_BOUND ≤ dr ∧ dr ≤ QOI_DIFF_UPPER_BOUND ∧
              QOI_DIFF_LOWER_BOUND ≤ dg ∧ dg ≤ QOI_DIFF_UPPER_BOUND ∧
              QOI_DIFF_LOWER_BOUND ≤ db ∧ db ≤ QOI_DIFF_UPPER_BOUND then
            [QOI_OP_DIFF |||
              ((dr - QOI_DIFF_LOWER_BOUND).toNat <<< 4) |||
              ((dg - QOI_DIFF_LOWER_BOUND).toNat <<< 2) |||
              (db - QOI_DIFF_LOWER_BOUND).toNat]
          else if QOI_LUMA_GREEN_LOWER_BOUND ≤ dg ∧ dg ≤ QOI_LUMA_GREEN_UPPER_BOUND ∧
              QOI_LUMA_RED_BLUE_LOWER_BOUND ≤ dr_dg ∧
              dr_dg ≤ QOI_LUMA_RED_BLUE_UPPER_BOUND ∧
              QOI_LUMA_RED_BLUE_LOWER_BOUND ≤ db_dg ∧
              db_dg ≤ QOI_LUMA_RED_BLUE_UPPER_BOUND then
            [QOI_OP_LUMA ||| (dg - QOI_LUMA_GREEN_LOWER_BOUND).toNat,
              ((dr_dg - QOI_LUMA_RED_BLUE_LOWER_BOUND).toNat <<< 4) |||
                (db_dg - QOI_LUMA_RED_BLUE_LOWER_BOUND).toNat]
          else
            [QOI_OP_RGB, currentPixel.red, currentPixel.green, currentPixel.blue]
        chunkBytes ++
          encodeLoop pixels maxPixelIndex hasAlpha fuel (pixelIndex + 1)
            currentPixel (cache.set hash currentPixel)
      else
        QOI_OP_RGBA :: currentPixel.red :: currentPixel.green ::
          currentPixel.blue :: currentPixel.alpha ::
          encodeLoop pixels maxPixelIndex hasAlpha fuel (pixelIndex + 1)
            currentPixel (cache.set hash currentPixel)
    else []

/-- The 14 header bytes `save_image` writes (lines 326-337): magic "qoif",
big-endian dimensions, channel count derived from the alpha flag, raw
colorspace tag. -/
def serialize_header (image : QoiImage) : List Nat :=
  [113, 111, 105, 102] ++ writeBE32 image.width ++ writeBE32 image.height ++
    [if image.has_alpha then QOI_CHANNELS_RGBA else QOI_CHANNELS_RGB,
      image.colorspace % 256]

/-- The byte count `save_image` allocates at lines 316-320:
`QOI_HEADER_SIZE + width * height * QOI_MAX_BYTES_PER_PIXEL +
QOI_END_MARKER_SIZE`, computed entirely in `guint32` arithmetic (the product
wraps, then the multiplication by 5 and the additions wrap), which is one
outer reduction modulo `2^32` of the exact sum. -/
def save_alloc_size (image : QoiImage) : Nat :=
  (QOI_HEADER_SIZE + image.width * image.height * QOI_MAX_BYTES_PER_PIXEL +
    QOI_END_MARKER_SIZE) % UINT32_MOD

/-- The byte sequence C `save_image` writes (header bytes, chunk stream, end
marker, lines 326-418), minus the file I/O.  `max_pixel_index` at line 339
is again a `guint32 * guint32` product, so only `width * height mod 2^32`
pixels are encoded.  The C writes these bytes into a buffer of
`save_alloc_size` bytes (a zero size makes `g_try_malloc` return `NULL` and
`save_image` give up, lines 321-323); its behaviour is defined only when the
stream fits that buffer, which the amended round-trip claim proves inside
its domain. -/
def save_image (image : QoiImage) : List Nat :=
  serialize_header image ++
    encodeLoop image.pixels (image.width * image.height % UINT32_MOD) image.has_alpha
      (image.width * image.height % UINT32_MOD) 0 qoiInitPixel
      (List.replicate 64 qoiZeroPixel) ++
    QOI_END_MARKER

instance {ε α : Type} [DecidableEq ε] [DecidableEq α] : DecidableEq (Except ε α) :=
  fun a b =>
    match a, b with
    | Except.error e, Except.error f =>
      if h : e = f then isTrue (by rw [h]) else isFalse (by intro c; injection c; exact h (by assumption))
    | Except.error _, Except.ok _ => isFalse (fun c => Except.noConfusion c)
    | Except.ok _, Except.error _ => isFalse (fun c => Except.noConfusion c)
    | Except.ok x, Except.ok y =>
      if h : x = y then isTrue (by rw [h]) else isFalse (by intro c; injection c; exact h (by assumption))

/-- A pixel whose channels are genuine octets. -/
def QoiPixel.wf (p : QoiPixel) : Prop :=
  p.red < 256 ∧ p.green < 256 ∧ p.blue < 256 ∧ p.alpha < 256

instance (p : QoiPixel) : Decidable p.wf := by unfold QoiPixel.wf; infer_instance

/-- A valid image in the sense of the data model: positive dimensions within
the format maximum, a buffer of exactly `width * height` octet pixels, and a
legal colorspace tag. -/
def QoiImage.valid (img : QoiImage) : Prop :=
  0 < img.width ∧ img.width ≤ GIMP_MAX_IMAGE_SIZE ∧
  0 < img.height ∧ img.height ≤ GIMP_MAX_IMAGE_SIZE ∧
  img.pixels.length = img.width * img.height ∧
  img.colorspace < 2 ∧
  (∀ p ∈ img.pixels, p.wf)

instance (img : QoiImage) : Decidable img.valid := by
  unfold QoiImage.valid; infer_instance

/-! ## Basic lemmas about the helpers -/

theorem qoi_pixel_equal_iff (a b : QoiPixel) : qoi_pixel_equal a b = true ↔ a = b := by
  cases a; cases b
  simp [qoi_pixel_equal, QoiPixel.mk.injEq, and_assoc]

theorem byteAt_nil (i : Nat) : byteAt [] i = 0 := by
  simp [byteAt]

theorem byteAt_cons_zero (a : Nat) (l : List Nat) : byteAt (a :: l) 0 = a % 256 := by
  simp [byteAt]

theorem byteAt_cons_succ (a : Nat) (l : List Nat) (i : Nat) :
    byteAt (a :: l) (i + 1) = byteAt l i := by
  simp [byteAt]

theorem prependPixels_ok (ps qs : List QoiPixel) (rem : List Nat) :
    prependPixels ps (Except.ok (qs, rem)) = Except.ok (ps ++ qs, rem) := rfl

theorem prependPixels_error (ps : List QoiPixel) (e : QoiError) :
    prependPixels ps (Except.error e) = Except.error e := rfl

theorem qoi_pixel_hash_lt (p : QoiPixel) : qoi_pixel_hash p < 64 :=
  Nat.mod_lt _ (by decide)

/-! ## Single-step characterizations of the decoder loop

Each lemma unfolds one iteration of `decodeLoop` for one chunk kind,
matching the if-chain of `load_image` lines 208-277. -/

theorem decodeLoop_done (max fuel : Nat) (rest : List Nat) (pixelIndex : Nat)
    (cur : QoiPixel) (cache : List QoiPixel) (h : ¬ pixelIndex < max) :
    decodeLoop max fuel rest pixelIndex cur cache = Except.ok ([], rest) := by
  cases fuel <;> simp [decodeLoop, h]

theorem decodeLoop_eof (max fuel : Nat) (rest : List Nat) (pixelIndex : Nat)
    (cur : QoiPixel) (cache : List QoiPixel) (h : pixelIndex < max)
    (h2 : rest.length < QOI_END_MARKER_SIZE) :
    decodeLoop max (fuel + 1) rest pixelIndex cur cache =
      Except.error QoiError.unexpectedEof := by
  simp [decodeLoop, h, h2]

theorem decodeLoop_rgb (max fuel : Nat) (rest : List Nat) (pixelIndex : Nat)
    (cur : QoiPixel) (cache : List QoiPixel) (h : pixelIndex < max)
    (h2 : ¬ rest.length < QOI_END_MARKER_SIZE) (ht : byteAt rest 0 = QOI_OP_RGB) :
    decodeLoop max (fuel + 1) rest pixelIndex cur cache =
      prependPixels [⟨byteAt rest 1, byteAt rest 2, byteAt rest 3, cur.alpha⟩]
        (decodeLoop max fuel (rest.drop 4) (pixelIndex + 1)
          ⟨byteAt rest 1, byteAt rest 2, byteAt rest 3, cur.alpha⟩
          (cache.set
            (qoi_pixel_hash ⟨byteAt rest 1, byteAt rest 2, byteAt rest 3, cur.alpha⟩)
            ⟨byteAt rest 1, byteAt rest 2, byteAt rest 3, cur.alpha⟩)) := by
  simp only [decodeLoop, if_pos h, if_neg h2, ht]
  simp

theorem decodeLoop_rgba (max fuel : Nat) (rest : List Nat) (pixelIndex : Nat)
    (cur : QoiPixel) (cache : List QoiPixel) (h : pixelIndex < max)
    (h2 : ¬ rest.length < QOI_END_MARKER_SIZE) (ht : byteAt rest 0 = QOI_OP_RGBA) :
    decodeLoop max (fuel + 1) rest pixelIndex cur cache =
      prependPixels [⟨byteAt rest 1, byteAt rest 2, byteAt rest 3, byteAt rest 4⟩]
        (decodeLoop max fuel (rest.drop 5) (pixelIndex + 1)
          ⟨byteAt rest 1, byteAt rest 2, byteAt rest 3, byteAt rest 4⟩
          (cache.set
            (qoi_pixel_hash ⟨byteAt rest 1, byteAt rest 2, byteAt rest 3, byteAt rest 4⟩)
            ⟨byteAt rest 1, byteAt rest 2, byteAt rest 3, byteAt rest 4⟩)) := by
  have hne : byteAt rest 0 ≠ QOI_OP_RGB := by rw [ht]; decide
  simp only [decodeLoop, if_pos h, if_neg h2, if_neg hne, if_pos ht]

theorem decodeLoop_index_break (max fuel : Nat) (rest : List Nat) (pixelIndex : Nat)
    (cur : QoiPixel) (cache : List QoiPixel) (h : pixelIndex < max)
    (h2 : ¬ rest.length < QOI_END_MARKER_SIZE)
    (ht : byteAt rest 0 &&& QOI_SMALL_TAG_MASK = QOI_OP_INDEX)
    (hm : endMarkerAt rest = true) :
    decodeLoop max (fuel + 1) rest pixelIndex cur cache =
      Except.ok ([], rest.drop 1) := by
  have h1 : byteAt rest 0 ≠ QOI_OP_RGB := by
    intro hc; rw [hc] at ht; exact absurd ht (by decide)
  have h3 : byteAt rest 0 ≠ QOI_OP_RGBA := by
    intro hc; rw [hc] at ht; exact absurd ht (by decide)
  simp only [decodeLoop, if_pos h, if_neg h2, if_neg h1, if_neg h3, if_pos ht,
    if_pos hm]

theorem decodeLoop_index (max fuel : Nat) (rest : List Nat) (pixelIndex : Nat)
    (cur : QoiPixel) (cache : List QoiPixel) (h : pixelIndex < max)
    (h2 : ¬ rest.length < QOI_END_MARKER_SIZE)
    (ht : byteAt rest 0 &&& QOI_SMALL_TAG_MASK = QOI_OP_INDEX)
    (hm : endMarkerAt rest = false) :
    decodeLoop max (fuel + 1) rest pixelIndex cur cache =
      prependPixels [cache.getD (byteAt rest 0 &&& 0x3F) qoiZeroPixel]
        (decodeLoop max fuel (rest.drop 1) (pixelIndex + 1)
          (cache.getD (byteAt rest 0 &&& 0x3F) qoiZeroPixel) cache) := by
  have h1 : byteAt rest 0 ≠ QOI_OP_RGB := by
    intro hc; rw [hc] at ht; exact absurd ht (by decide)
  have h3 : byteAt rest 0 ≠ QOI_OP_RGBA := by
    intro hc; rw [hc] at ht; exact absurd ht (by decide)
  have hm' : ¬ endMarkerAt rest = true := by rw [hm]; decide
  simp only [decodeLoop, if_pos h, if_neg h2, if_neg h1, if_neg h3, if_pos ht,
    if_neg hm']

theorem decodeLoop_diff (max fuel : Nat) (rest : List Nat) (pixelIndex : Nat)
    (cur : QoiPixel) (cache : List QoiPixel) (h : pixelIndex < max)
    (h2 : ¬ rest.length < QOI_END_MARKER_SIZE)
    (ht : byteAt rest 0 &&& QOI_SMALL_TAG_MASK = QOI_OP_DIFF) :
    decodeLoop max (fuel + 1) rest pixelIndex cur cache =
      prependPixels
        [⟨byteAdd cur.red ((((byteAt rest 0 >>> 4) &&& 0x03 : Nat) : Int) + QOI_DIFF_LOWER_BOUND),
          byteAdd cur.green ((((byteAt rest 0 >>> 2) &&& 0x03 : Nat) : Int) + QOI_DIFF_LOWER_BOUND),
          byteAdd cur.blue ((((byteAt rest 0 >>> 0) &&& 0x03 : Nat) : Int) + QOI_DIFF_LOWER_BOUND),
          cur.alpha⟩]
        (decodeLoop max fuel (rest.drop 1) (pixelIndex + 1)
          ⟨byteAdd cur.red ((((byteAt rest 0 >>> 4) &&& 0x03 : Nat) : Int) + QOI_DIFF_LOWER_BOUND),
            byteAdd cur.green ((((byteAt rest 0 >>> 2) &&& 0x03 : Nat) : Int) + QOI_DIFF_LOWER_BOUND),
            byteAdd cur.blue ((((byteAt rest 0 >>> 0) &&& 0x03 : Nat) : Int) + QOI_DIFF_LOWER_BOUND),
            cur.alpha⟩
          (cache.set
            (qoi_pixel_hash
              ⟨byteAdd cur.red ((((byteAt rest 0 >>> 4) &&& 0x03 : Nat) : Int) + QOI_DIFF_LOWER_BOUND),
                byteAdd cur.green ((((byteAt rest 0 >>> 2) &&& 0x03 : Nat) : Int) + QOI_DIFF_LOWER_BOUND),
                byteAdd cur.blue ((((byteAt rest 0 >>> 0) &&& 0x03 : Nat) : Int) + QOI_DIFF_LOWER_BOUND),
                cur.alpha⟩)
            ⟨byteAdd cur.red ((((byteAt rest 0 >>> 4) &&& 0x03 : Nat) : Int) + QOI_DIFF_LOWER_BOUND),
              byteAdd cur.green ((((byteAt rest 0 >>> 2) &&& 0x03 : Nat) : Int) + QOI_DIFF_LOWER_BOUND),
              byteAdd cur.blue ((((byteAt rest 0 >>> 0) &&& 0x03 : Nat) : Int) + QOI_DIFF_LOWER_BOUND),
              cur.alpha⟩)) := by
  have h1 : byteAt rest 0 ≠ QOI_OP_RGB := by
    intro hc; rw [hc] at ht; exact absurd ht (by decide)
  have h3 : byteAt rest 0 ≠ QOI_OP_RGBA := by
    intro hc; rw [hc] at ht; exact absurd ht (by decide)
  have h4 : ¬ byteAt rest 0 &&& QOI_SMALL_TAG_MASK = QOI_OP_INDEX := by
    rw [ht]; decide
  simp only [decodeLoop, if_pos h, if_neg h2, if_neg h1, if_neg h3, if_neg h4,
    if_pos ht]

theorem decodeLoop_luma (max fuel : Nat) (rest : List Nat) (pixelIndex : Nat)
    (cur : QoiPixel) (cache : List QoiPixel) (h : pixelIndex < max)
    (h2 : ¬ rest.length < QOI_END_MARKER_SIZE)
    (ht : byteAt rest 0 &&& QOI_SMALL_TAG_MASK = QOI_OP_LUMA) :
    decodeLoop max (fuel + 1) rest pixelIndex cur cache =
      prependPixels
        [⟨byteAdd cur.red ((((byteAt rest 1 >>> 4) &&& 0x0F : Nat) : Int) +
            QOI_LUMA_RED_BLUE_LOWER_BOUND +
            (((byteAt rest 0 &&& 0x3F : Nat) : Int) + QOI_LUMA_GREEN_LOWER_BOUND)),
          byteAdd cur.green (((byteAt rest 0 &&& 0x3F : Nat) : Int) + QOI_LUMA_GREEN_LOWER_BOUND),
          byteAdd cur.blue ((((byteAt rest 1 >>> 0) &&& 0x0F : Nat) : Int) +
            QOI_LUMA_RED_BLUE_LOWER_BOUND +
            (((byteAt rest 0 &&& 0x3F : Nat) : Int) + QOI_LUMA_GREEN_LOWER_BOUND)),
          cur.alpha⟩]
        (decodeLoop max fuel (rest.drop 2) (pixelIndex + 1)
          ⟨byteAdd cur.red ((((byteAt rest 1 >>> 4) &&& 0x0F : Nat) : Int) +
              QOI_LUMA_RED_BLUE_LOWER_BOUND +
              (((byteAt rest 0 &&& 0x3F : Nat) : Int) + QOI_LUMA_GREEN_LOWER_BOUND)),
            byteAdd cur.green (((byteAt rest 0 &&& 0x3F : Nat) : Int) + QOI_LUMA_GREEN_LOWER_BOUND),
            byteAdd cur.blue ((((byteAt rest 1 >>> 0) &&& 0x0F : Nat) : Int) +
              QOI_LUMA_RED_BLUE_LOWER_BOUND +
              (((byteAt rest 0 &&& 0x3F : Nat) : Int) + QOI_LUMA_GREEN_LOWER_BOUND)),
            cur.alpha⟩
          (cache.set
            (qoi_pixel_hash
              ⟨byteAdd cur.red ((((byteAt rest 1 >>> 4) &&& 0x0F : Nat) : Int) +
                  QOI_LUMA_RED_BLUE_LOWER_BOUND +
                  (((byteAt rest 0 &&& 0x3F : Nat) : Int) + QOI_LUMA_GREEN_LOWER_BOUND)),
                byteAdd cur.green (((byteAt rest 0 &&& 0x3F : Nat) : Int) + QOI_LUMA_GREEN_LOWER_BOUND),
                byteAdd cur.blue ((((byteAt rest 1 >>> 0) &&& 0x0F : Nat) : Int) +
                  QOI_LUMA_RED_BLUE_LOWER_BOUND +
                  (((byteAt rest 0 &&& 0x3F : Nat) : Int) + QOI_LUMA_GREEN_LOWER_BOUND)),
                cur.alpha⟩)
            ⟨byteAdd cur.red ((((byteAt rest 1 >>> 4) &&& 0x0F : Nat) : Int) +
                QOI_LUMA_RED_BLUE_LOWER_BOUND +
                (((byteAt rest 0 &&& 0x3F : Nat) : Int) + QOI_LUMA_GREEN_LOWER_BOUND)),
              byteAdd cur.green (((byteAt rest 0 &&& 0x3F : Nat) : Int) + QOI_LUMA_GREEN_LOWER_BOUND),
              byteAdd cur.blue ((((byteAt rest 1 >>> 0) &&& 0x0F : Nat) : Int) +
                QOI_LUMA_RED_BLUE_LOWER_BOUND +
                (((byteAt rest 0 &&& 0x3F : Nat) : Int) + QOI_LUMA_GREEN_LOWER_BOUND)),
              cur.alpha⟩)) := by
  have h1 : byteAt rest 0 ≠ QOI_OP_RGB := by
    intro hc; rw [hc] at ht; exact absurd ht (by decide)
  have h3 : byteAt rest 0 ≠ QOI_OP_RGBA := by
    intro hc; rw [hc] at ht; exact absurd ht (by decide)
  have h4 : ¬ byteAt rest 0 &&& QOI_SMALL_TAG_MASK = QOI_OP_INDEX := by
    rw [ht]; decide
  have h5 : ¬ byteAt rest 0 &&& QOI_SMALL_TAG_MASK = QOI_OP_DIFF := by
    rw [ht]; decide
  simp only [decodeLoop, if_pos h, if_neg h2, if_neg h1, if_neg h3, if_neg h4,
    if_neg h5, if_pos ht]

theorem decodeLoop_run (max fuel : Nat) (rest : List Nat) (pixelIndex : Nat)
    (cur : QoiPixel) (cache : List QoiPixel) (h : pixelIndex < max)
    (h2 : ¬ rest.length < QOI_END_MARKER_SIZE)
    (ht : byteAt rest 0 &&& QOI_SMALL_TAG_MASK = QOI_OP_RUN)
    (htr1 : byteAt rest 0 ≠ QOI_OP_RGB) (htr2 : byteAt rest 0 ≠ QOI_OP_RGBA) :
    decodeLoop max (fuel + 1) rest pixelIndex cur cache =
      prependPixels (List.replicate ((byteAt rest 0 &&& 0x3F) + 1) cur)
        (decodeLoop max fuel (rest.drop 1)
          (pixelIndex + ((byteAt rest 0 &&& 0x3F) + 1)) cur cache) := by
  have h4 : ¬ byteAt rest 0 &&& QOI_SMALL_TAG_MASK = QOI_OP_INDEX := by
    rw [ht]; decide
  have h5 : ¬ byteAt rest 0 &&& QOI_SMALL_TAG_MASK = QOI_OP_DIFF := by
    rw [ht]; decide
  have h6 : ¬ byteAt rest 0 &&& QOI_SMALL_TAG_MASK = QOI_OP_LUMA := by
    rw [ht]; decide
  have h7 : ¬ pixelIndex > max + ((byteAt rest 0 &&& 0x3F) + 1) := by omega
  simp only [decodeLoop, if_pos h, if_neg h2, if_neg htr1, if_neg htr2, if_neg h4,
    if_neg h5, if_neg h6, if_pos ht, if_neg h7]

/-! ## Claim C8: the cache hash -/

/-- C8: for every pixel `(r,g,b,a)`, the cache index used by decoder and
encoder — `qoi_pixel_hash` — equals `(r*3 + g*5 + b*7 + a*11) mod 64`,
computed over all four channels including alpha, and is always below 64. -/
theorem c8_pixel_hash_spec (p : QoiPixel) :
    qoi_pixel_hash p =
      (p.red * 3 + p.green * 5 + p.blue * 7 + p.alpha * 11) % 64 ∧
    qoi_pixel_hash p < 64 :=
  ⟨rfl, qoi_pixel_hash_lt p⟩

/-! ## Claim C2: the run-overrun guard is dead -/

/-- A 1×1 RGB image followed by a run chunk of length 2 (`0xC1`) and the end
marker: the run pushes the pixel count to 2 > 1·1. -/
def c2_input : List Nat :=
  [113, 111, 105, 102, 0, 0, 0, 1, 0, 0, 0, 1, 3, 0, 0xC1,
    0, 0, 0, 0, 0, 0, 0, 1]

/-- C2 (code bug): the overrun guard `pixel_index > max_pixel_index + run`
of `load_image` line 269 can never fire, so a run chunk that pushes the
output pixel count past `width * height` is accepted: decoding `c2_input`
(a 1×1 image with a run of 2) succeeds with two pixels instead of failing
with the run-overrun violation. -/
theorem c2_run_overrun_not_rejected :
    load_image c2_input =
      Except.ok ⟨[⟨0, 0, 0, 255⟩, ⟨0, 0, 0, 255⟩], 1, 1, 0, false⟩ ∧
    load_image c2_input ≠ Except.error QoiError.invalidRunLength := by
  constructor
  · rfl
  · decide

/-! ## Claim C3: the early end-marker break leaves `file_index` past the tag -/

/-- A 1×1 RGB image whose chunk stream is immediately the end marker (the
declared pixel count is never reached, so the decoder meets the marker while
still expecting chunks). -/
def c3_input : List Nat :=
  [113, 111, 105, 102, 0, 0, 0, 1, 0, 0, 0, 1, 3, 0,
    0, 0, 0, 0, 0, 0, 0, 1]

/-- C3 (code bug): when the decoder meets the end marker at a would-be index
tag, it breaks with `file_index` already one past the tag byte, so the
trailer check starts one byte late: with exactly the 8 marker bytes left the
decode reports `unexpectedEof` instead of succeeding, and with one byte
after the marker it reports `invalidEndMarker`. -/
theorem c3_end_marker_break_misaligned :
    load_image c3_input = Except.error QoiError.unexpectedEof ∧
    load_image (c3_input ++ [0]) = Except.error QoiError.invalidEndMarker := by
  constructor
  · rfl
  · rfl

/-! ## Claim C5: header parsing -/

/-- C5: `parse_header` requires 14 bytes (`unexpectedEof`), then validates
the magic (`badMagic`), the channel byte (`unsupportedChannels` unless
exactly 3 or 4), the colorspace byte (`unsupportedColorspace` unless exactly
0 or 1), and the big-endian-decoded dimensions (`invalidDimensions` when
zero or above the maximum); otherwise it succeeds with the decoded fields. -/
theorem c5_parse_header_spec (data : List Nat) :
    (data.length < 14 → parse_header data = Except.error QoiError.unexpectedEof) ∧
    (14 ≤ data.length →
      ¬(byteAt data 0 = 113 ∧ byteAt data 1 = 111 ∧
        byteAt data 2 = 105 ∧ byteAt data 3 = 102) →
      parse_header data = Except.error QoiError.badMagic) ∧
    (14 ≤ data.length →
      (byteAt data 0 = 113 ∧ byteAt data 1 = 111 ∧
        byteAt data 2 = 105 ∧ byteAt data 3 = 102) →
      byteAt data 12 ≠ 3 → byteAt data 12 ≠ 4 →
      parse_header data = Except.error QoiError.unsupportedChannels) ∧
    (14 ≤ data.length →
      (byteAt data 0 = 113 ∧ byteAt data 1 = 111 ∧
        byteAt data 2 = 105 ∧ byteAt data 3 = 102) →
      (byteAt data 12 = 3 ∨ byteAt data 12 = 4) →
      byteAt data 13 ≠ 0 → byteAt data 13 ≠ 1 →
      parse_header data = Except.error QoiError.unsupportedColorspace) ∧
    (14 ≤ data.length →
      (byteAt data 0 = 113 ∧ byteAt data 1 = 111 ∧
        byteAt data 2 = 105 ∧ byteAt data 3 = 102) →
      (byteAt data 12 = 3 ∨ byteAt data 12 = 4) →
      (byteAt data 13 = 0 ∨ byteAt data 13 = 1) →
      (readBE32 data 4 = 0 ∨ readBE32 data 4 > GIMP_MAX_IMAGE_SIZE ∨
        readBE32 data 8 = 0 ∨ readBE32 data 8 > GIMP_MAX_IMAGE_SIZE) →
      parse_header data = Except.error QoiError.invalidDimensions) ∧
    (14 ≤ data.length →
      (byteAt data 0 = 113 ∧ byteAt data 1 = 111 ∧
        byteAt data 2 = 105 ∧ byteAt data 3 = 102) →
      (byteAt data 12 = 3 ∨ byteAt data 12 = 4) →
      (byteAt data 13 = 0 ∨ byteAt data 13 = 1) →
      0 < readBE32 data 4 → readBE32 data 4 ≤ GIMP_MAX_IMAGE_SIZE →
      0 < readBE32 data 8 → readBE32 data 8 ≤ GIMP_MAX_IMAGE_SIZE →
      parse_header data =
        Except.ok ⟨byteAt data 12 == 4, byteAt data 13,
          readBE32 data 4, readBE32 data 8⟩) := by
  refine ⟨?_, ?_, ?_, ?_, ?_, ?_⟩
  · intro h
    rw [parse_header, if_pos (by unfold QOI_HEADER_SIZE; omega)]
  · intro h hm
    rw [parse_header, if_neg (by unfold QOI_HEADER_SIZE; omega), if_pos hm]
  · intro h hm h3 h4
    rw [parse_header, if_neg (by unfold QOI_HEADER_SIZE; omega),
      if_neg (by simpa using hm),
      if_pos (by unfold QOI_CHANNELS_RGB QOI_CHANNELS_RGBA; tauto)]
  · intro h hm hch h0 h1
    rw [parse_header, if_neg (by unfold QOI_HEADER_SIZE; omega),
      if_neg (by simpa using hm),
      if_neg (by unfold QOI_CHANNELS_RGB QOI_CHANNELS_RGBA; tauto),
      if_pos (by tauto)]
  · intro h hm hch hcs hd
    rw [parse_header, if_neg (by unfold QOI_HEADER_SIZE; omega),
      if_neg (by simpa using hm),
      if_neg (by unfold QOI_CHANNELS_RGB QOI_CHANNELS_RGBA; tauto),
      if_neg (by tauto)]
    by_cases hw : readBE32 data 4 = 0 ∨ readBE32 data 4 > GIMP_MAX_IMAGE_SIZE
    · rw [if_pos hw]
    · rw [if_neg hw,
        if_pos (show readBE32 data 8 = 0 ∨ readBE32 data 8 > GIMP_MAX_IMAGE_SIZE by omega)]
  · intro h hm hch hcs hw0 hwm hh0 hhm
    rw [parse_header, if_neg (by unfold QOI_HEADER_SIZE; omega),
      if_neg (by simpa using hm),
      if_neg (by unfold QOI_CHANNELS_RGB QOI_CHANNELS_RGBA; tauto),
      if_neg (by tauto), if_neg (by omega), if_neg (by omega)]
    rfl

/-- Witness for C5: each case of `c5_parse_header_spec` at a concrete
header. -/
theorem c5_parse_header_spec_witness :
    parse_header [113] = Except.error QoiError.unexpectedEof ∧
    parse_header [0, 0, 0, 0, 0, 0, 0, 1, 0, 0, 0, 1, 3, 0] =
      Except.error QoiError.badMagic ∧
    parse_header [113, 111, 105, 102, 0, 0, 0, 1, 0, 0, 0, 1, 5, 0] =
      Except.error QoiError.unsupportedChannels ∧
    parse_header [113, 111, 105, 102, 0, 0, 0, 1, 0, 0, 0, 1, 3, 2] =
      Except.error QoiError.unsupportedColorspace ∧
    parse_header [113, 111, 105, 102, 0, 0, 0, 0, 0, 0, 0, 1, 3, 0] =
      Except.error QoiError.invalidDimensions ∧
    parse_header [113, 111, 105, 102, 0, 0, 0, 2, 0, 0, 0, 3, 4, 1] =
      Except.ok ⟨true, 1, 2, 3⟩ := by
  refine ⟨?_, ?_, ?_, ?_, ?_, ?_⟩
  · exact (c5_parse_header_spec _).1 (by decide)
  · exact (c5_parse_header_spec _).2.1 (by decide) (by decide)
  · exact (c5_parse_header_spec _).2.2.1 (by decide) (by decide) (by decide) (by decide)
  · exact (c5_parse_header_spec _).2.2.2.1 (by decide) (by decide) (by decide)
      (by decide) (by decide)
  · exact (c5_parse_header_spec _).2.2.2.2.1 (by decide) (by decide) (by decide)
      (by decide) (by decide)
  · exact (c5_parse_header_spec _).2.2.2.2.2 (by decide) (by decide) (by decide)
      (by decide) (by decide) (by decide) (by decide) (by decide)

/-! ## Single-step characterizations of the encoder loop -/

theorem encodeLoop_done (pixels : List QoiPixel) (max : Nat) (ha : Bool)
    (fuel pixelIndex : Nat) (prev : QoiPixel) (cache : List QoiPixel)
    (h : ¬ pixelIndex < max) :
    encodeLoop pixels max ha fuel pixelIndex prev cache = [] := by
  cases fuel <;> simp [encodeLoop, h]

theorem encodeLoop_run (pixels : List QoiPixel) (max : Nat) (ha : Bool)
    (fuel pixelIndex : Nat) (prev : QoiPixel) (cache : List QoiPixel)
    (h : pixelIndex < max)
    (heq : qoi_pixel_equal prev (pixels.getD pixelIndex qoiZeroPixel) = true) :
    encodeLoop pixels max ha (fuel + 1) pixelIndex prev cache =
      (encodeRunLoop pixels max prev (fuel + 1) pixelIndex 0).2 ++
        encodeLoop pixels max ha fuel
          (encodeRunLoop pixels max prev (fuel + 1) pixelIndex 0).1 prev cache := by
  simp only [encodeLoop, if_pos h, if_pos heq]

theorem encodeLoop_index (pixels : List QoiPixel) (max : Nat) (ha : Bool)
    (fuel pixelIndex : Nat) (prev cur : QoiPixel) (cache : List QoiPixel)
    (h : pixelIndex < max) (hcur : pixels.getD pixelIndex qoiZeroPixel = cur)
    (hne : qoi_pixel_equal prev cur = false)
    (hidx : qoi_pixel_equal cur (cache.getD (qoi_pixel_hash cur) qoiZeroPixel) = true) :
    encodeLoop pixels max ha (fuel + 1) pixelIndex prev cache =
      (QOI_OP_INDEX ||| qoi_pixel_hash cur) ::
        encodeLoop pixels max ha fuel (pixelIndex + 1) cur cache := by
  have hne' : ¬ qoi_pixel_equal prev cur = true := by rw [hne]; decide
  simp only [encodeLoop, if_pos h, hcur, if_neg hne', if_pos hidx]

theorem encodeLoop_diff (pixels : List QoiPixel) (max : Nat) (ha : Bool)
    (fuel pixelIndex : Nat) (prev cur : QoiPixel) (cache : List QoiPixel)
    (h : pixelIndex < max) (hcur : pixels.getD pixelIndex qoiZeroPixel = cur)
    (hne : qoi_pixel_equal prev cur = false)
    (hidx : qoi_pixel_equal cur (cache.getD (qoi_pixel_hash cur) qoiZeroPixel) = false)
    (halpha : ((!ha) || cur.alpha == prev.alpha) = true)
    (hd : QOI_DIFF_LOWER_BOUND ≤ (cur.red : Int) - (prev.red : Int) ∧
      (cur.red : Int) - (prev.red : Int) ≤ QOI_DIFF_UPPER_BOUND ∧
      QOI_DIFF_LOWER_BOUND ≤ (cur.green : Int) - (prev.green : Int) ∧
      (cur.green : Int) - (prev.green : Int) ≤ QOI_DIFF_UPPER_BOUND ∧
      QOI_DIFF_LOWER_BOUND ≤ (cur.blue : Int) - (prev.blue : Int) ∧
      (cur.blue : Int) - (prev.blue : Int) ≤ QOI_DIFF_UPPER_BOUND) :
    encodeLoop pixels max ha (fuel + 1) pixelIndex prev cache =
      (QOI_OP_DIFF |||
        ((((cur.red : Int) - (prev.red : Int)) - QOI_DIFF_LOWER_BOUND).toNat <<< 4) |||
        ((((cur.green : Int) - (prev.green : Int)) - QOI_DIFF_LOWER_BOUND).toNat <<< 2) |||
        (((cur.blue : Int) - (prev.blue : Int)) - QOI_DIFF_LOWER_BOUND).toNat) ::
        encodeLoop pixels max ha fuel (pixelIndex + 1) cur
          (cache.set (qoi_pixel_hash cur) cur) := by
  have hne' : ¬ qoi_pixel_equal prev cur = true := by rw [hne]; decide
  have hidx' : ¬ qoi_pixel_equal cur (cache.getD (qoi_pixel_hash cur) qoiZeroPixel) = true := by
    rw [hidx]; decide
  simp only [encodeLoop, if_pos h, hcur, if_neg hne', if_neg hidx', if_pos halpha,
    if_pos hd]
  rfl

theorem encodeLoop_luma (pixels : List QoiPixel) (max : Nat) (ha : Bool)
    (fuel pixelIndex : Nat) (prev cur : QoiPixel) (cache : List QoiPixel)
    (h : pixelIndex < max) (hcur : pixels.getD pixelIndex qoiZeroPixel = cur)
    (hne : qoi_pixel_equal prev cur = false)
    (hidx : qoi_pixel_equal cur (cache.getD (qoi_pixel_hash cur) qoiZeroPixel) = false)
    (halpha : ((!ha) || cur.alpha == prev.alpha) = true)
    (hnd : ¬ (QOI_DIFF_LOWER_BOUND ≤ (cur.red : Int) - (prev.red : Int) ∧
      (cur.red : Int) - (prev.red : Int) ≤ QOI_DIFF_UPPER_BOUND ∧
      QOI_DIFF_LOWER_BOUND ≤ (cur.green : Int) - (prev.green : Int) ∧
      (cur.green : Int) - (prev.green : Int) ≤ QOI_DIFF_UPPER_BOUND ∧
      QOI_DIFF_LOWER_BOUND ≤ (cur.blue : Int) - (prev.blue : Int) ∧
      (cur.blue : Int) - (prev.blue : Int) ≤ QOI_DIFF_UPPER_BOUND))
    (hl : QOI_LUMA_GREEN_LOWER_BOUND ≤ (cur.green : Int) - (prev.green : Int) ∧
      (cur.green : Int) - (prev.green : Int) ≤ QOI_LUMA_GREEN_UPPER_BOUND ∧
      QOI_LUMA_RED_BLUE_LOWER_BOUND ≤
        ((cur.red : Int) - (prev.red : Int)) - ((cur.green : Int) - (prev.green : Int)) ∧
      ((cur.red : Int) - (prev.red : Int)) - ((cur.green : Int) - (prev.green : Int)) ≤
        QOI_LUMA_RED_BLUE_UPPER_BOUND ∧
      QOI_LUMA_RED_BLUE_LOWER_BOUND ≤
        ((cur.blue : Int) - (prev.blue : Int)) - ((cur.green : Int) - (prev.green : Int)) ∧
      ((cur.blue : Int) - (prev.blue : Int)) - ((cur.green : Int) - (prev.green : Int)) ≤
        QOI_LUMA_RED_BLUE_UPPER_BOUND) :
    encodeLoop pixels max ha (fuel + 1) pixelIndex prev cache =
      (QOI_OP_LUMA |||
          (((cur.green : Int) - (prev.green : Int)) - QOI_LUMA_GREEN_LOWER_BOUND).toNat) ::
        (((((cur.red : Int) - (prev.red : Int)) - ((cur.green : Int) - (prev.green : Int)) -
            QOI_LUMA_RED_BLUE_LOWER_BOUND).toNat <<< 4) |||
          (((cur.blue : Int) - (prev.blue : Int)) - ((cur.green : Int) - (prev.green : Int)) -
            QOI_LUMA_RED_BLUE_LOWER_BOUND).toNat) ::
        encodeLoop pixels max ha fuel (pixelIndex + 1) cur
          (cache.set (qoi_pixel_hash cur) cur) := by
  have hne' : ¬ qoi_pixel_equal prev cur = true := by rw [hne]; decide
  have hidx' : ¬ qoi_pixel_equal cur (cache.getD (qoi_pixel_hash cur) qoiZeroPixel) = true := by
    rw [hidx]; decide
  simp only [encodeLoop, if_pos h, hcur, if_neg hne', if_neg hidx', if_pos halpha,
    if_neg hnd, if_pos hl]
  rfl

theorem encodeLoop_rgbLit (pixels : List QoiPixel) (max : Nat) (ha : Bool)
    (fuel pixelIndex : Nat) (prev cur : QoiPixel) (cache : List QoiPixel)
    (h : pixelIndex < max) (hcur : pixels.getD pixelIndex qoiZeroPixel = cur)
    (hne : qoi_pixel_equal prev cur = false)
    (hidx : qoi_pixel_equal cur (cache.getD (qoi_pixel_hash cur) qoiZeroPixel) = false)
    (halpha : ((!ha) || cur.alpha == prev.alpha) = true)
    (hnd : ¬ (QOI_DIFF_LOWER_BOUND ≤ (cur.red : Int) - (prev.red : Int) ∧
      (cur.red : Int) - (prev.red : Int) ≤ QOI_DIFF_UPPER_BOUND ∧
      QOI_DIFF_LOWER_BOUND ≤ (cur.green : Int) - (prev.green : Int) ∧
      (cur.green : Int) - (prev.green : Int) ≤ QOI_DIFF_UPPER_BOUND ∧
      QOI_DIFF_LOWER_BOUND ≤ (cur.blue : Int) - (prev.blue : Int) ∧
      (cur.blue : Int) - (prev.blue : Int) ≤ QOI_DIFF_UPPER_BOUND))
    (hnl : ¬ (QOI_LUMA_GREEN_LOWER_BOUND ≤ (cur.green : Int) - (prev.green : Int) ∧
      (cur.green : Int) - (prev.green : Int) ≤ QOI_LUMA_GREEN_UPPER_BOUND ∧
      QOI_LUMA_RED_BLUE_LOWER_BOUND ≤
        ((cur.red : Int) - (prev.red : Int)) - ((cur.green : Int) - (prev.green : Int)) ∧
      ((cur.red : Int) - (prev.red : Int)) - ((cur.green : Int) - (prev.green : Int)) ≤
        QOI_LUMA_RED_BLUE_UPPER_BOUND ∧
      QOI_LUMA_RED_BLUE_LOWER_BOUND ≤
        ((cur.blue : Int) - (prev.blue : Int)) - ((cur.green : Int) - (prev.green : Int)) ∧
      ((cur.blue : Int) - (prev.blue : Int)) - ((cur.green : Int) - (prev.green : Int)) ≤
        QOI_LUMA_RED_BLUE_UPPER_BOUND)) :
    encodeLoop pixels max ha (fuel + 1) pixelIndex prev cache =
      QOI_OP_RGB :: cur.red :: cur.green :: cur.blue ::
        encodeLoop pixels max ha fuel (pixelIndex + 1) cur
          (cache.set (qoi_pixel_hash cur) cur) := by
  have hne' : ¬ qoi_pixel_equal prev cur = true := by rw [hne]; decide
  have hidx' : ¬ qoi_pixel_equal cur (cache.getD (qoi_pixel_hash cur) qoiZeroPixel) = true := by
    rw [hidx]; decide
  simp only [encodeLoop, if_pos h, hcur, if_neg hne', if_neg hidx', if_pos halpha,
    if_neg hnd, if_neg hnl]
  rfl

theorem encodeLoop_rgbaLit (pixels : List QoiPixel) (max : Nat) (ha : Bool)
    (fuel pixelIndex : Nat) (prev cur : QoiPixel) (cache : List QoiPixel)
    (h : pixelIndex < max) (hcur : pixels.getD pixelIndex qoiZeroPixel = cur)
    (hne : qoi_pixel_equal prev cur = false)
    (hidx : qoi_pixel_equal cur (cache.getD (qoi_pixel_hash cur) qoiZeroPixel) = false)
    (halpha : ((!ha) || cur.alpha == prev.alpha) = false) :
    encodeLoop pixels max ha (fuel + 1) pixelIndex prev cache =
      QOI_OP_RGBA :: cur.red :: cur.green :: cur.blue :: cur.alpha ::
        encodeLoop pixels max ha fuel (pixelIndex + 1) cur
          (cache.set (qoi_pixel_hash cur) cur) := by
  have hne' : ¬ qoi_pixel_equal prev cur = true := by rw [hne]; decide
  have hidx' : ¬ qoi_pixel_equal cur (cache.getD (qoi_pixel_hash cur) qoiZeroPixel) = true := by
    rw [hidx]; decide
  have halpha' : ¬ ((!ha) || cur.alpha == prev.alpha) = true := by rw [halpha]; decide
  simp only [encodeLoop, if_pos h, hcur, if_neg hne', if_neg hidx', if_neg halpha']

/-! ## Cache-slot frame lemmas -/

theorem getD_set_self {α : Type} (l : List α) (i : Nat) (a d : α)
    (h : i < l.length) : (l.set i a).getD i d = a := by
  induction l generalizing i with
  | nil => simp at h
  | cons x xs ih =>
    cases i with
    | zero => simp [List.set]
    | succ n => simpa [List.set] using ih n (by simpa using h)

theorem getD_set_ne {α : Type} (l : List α) (i j : Nat) (a d : α)
    (h : i ≠ j) : (l.set i a).getD j d = l.getD j d := by
  induction l generalizing i j with
  | nil => simp [List.set]
  | cons x xs ih =>
    cases i with
    | zero =>
      cases j with
      | zero => exact absurd rfl h
      | succ m => simp [List.set]
    | succ n =>
      cases j with
      | zero => simp [List.set]
      | succ m => simpa [List.set] using ih n m (by omega)

/-- Adding a signed delta to an octet, as an integer: the result is the sum
reduced into `[0, 256)`. -/
theorem byteAdd_eq (c : Nat) (d : Int) :
    ((byteAdd c d : Nat) : Int) = ((c : Int) + d) % 256 := by
  unfold byteAdd
  rw [Int.toNat_of_nonneg (Int.emod_nonneg _ (by decide))]

theorem byteAdd_lt (c : Nat) (d : Int) : byteAdd c d < 256 := by
  have h1 : 0 ≤ ((c : Int) + d) % 256 := Int.emod_nonneg _ (by decide)
  have h2 : ((c : Int) + d) % 256 < 256 := Int.emod_lt_of_pos _ (by decide)
  unfold byteAdd
  omega

/-! ## Claim C10: small-diff and luma chunks always succeed, with wraparound -/

/-- C10: for every previous pixel and every small-diff or luma chunk at the
head of the stream, the decode step always succeeds (it prepends one pixel
and continues; no error is possible from the delta values), each colour
channel of the new pixel is the old channel plus the decoded delta reduced
modulo 256, alpha is unchanged, and every channel stays below 256. -/
theorem c10_diff_luma_wraparound (max fuel : Nat) (rest : List Nat)
    (pixelIndex : Nat) (cur : QoiPixel) (cache : List QoiPixel)
    (h : pixelIndex < max) (h2 : ¬ rest.length < QOI_END_MARKER_SIZE) :
    (byteAt rest 0 &&& QOI_SMALL_TAG_MASK = QOI_OP_DIFF →
      ∃ p : QoiPixel,
        decodeLoop max (fuel + 1) rest pixelIndex cur cache =
          prependPixels [p]
            (decodeLoop max fuel (rest.drop 1) (pixelIndex + 1) p
              (cache.set (qoi_pixel_hash p) p)) ∧
        (p.red : Int) =
          ((cur.red : Int) + ((((byteAt rest 0 >>> 4) &&& 0x03 : Nat) : Int) - 2)) % 256 ∧
        (p.green : Int) =
          ((cur.green : Int) + ((((byteAt rest 0 >>> 2) &&& 0x03 : Nat) : Int) - 2)) % 256 ∧
        (p.blue : Int) =
          ((cur.blue : Int) + (((byteAt rest 0 &&& 0x03 : Nat) : Int) - 2)) % 256 ∧
        p.alpha = cur.alpha ∧ p.red < 256 ∧ p.green < 256 ∧ p.blue < 256) ∧
    (byteAt rest 0 &&& QOI_SMALL_TAG_MASK = QOI_OP_LUMA →
      ∃ p : QoiPixel,
        decodeLoop max (fuel + 1) rest pixelIndex cur cache =
          prependPixels [p]
            (decodeLoop max fuel (rest.drop 2) (pixelIndex + 1) p
              (cache.set (qoi_pixel_hash p) p)) ∧
        (p.red : Int) =
          ((cur.red : Int) + (((byteAt rest 0 &&& 0x3F : Nat) : Int) - 32) +
            ((((byteAt rest 1 >>> 4) &&& 0x0F : Nat) : Int) - 8)) % 256 ∧
        (p.green : Int) =
          ((cur.green : Int) + (((byteAt rest 0 &&& 0x3F : Nat) : Int) - 32)) % 256 ∧
        (p.blue : Int) =
          ((cur.blue : Int) + (((byteAt rest 0 &&& 0x3F : Nat) : Int) - 32) +
            (((byteAt rest 1 &&& 0x0F : Nat) : Int) - 8)) % 256 ∧
        p.alpha = cur.alpha ∧ p.red < 256 ∧ p.green < 256 ∧ p.blue < 256) := by
  constructor
  · intro ht
    refine ⟨_, decodeLoop_diff max fuel rest pixelIndex cur cache h h2 ht, ?_, ?_, ?_,
      rfl, byteAdd_lt _ _, byteAdd_lt _ _, byteAdd_lt _ _⟩
    · rw [byteAdd_eq]
      unfold QOI_DIFF_LOWER_BOUND
      ring_nf
    · rw [byteAdd_eq]
      unfold QOI_DIFF_LOWER_BOUND
      ring_nf
    · rw [byteAdd_eq]
      unfold QOI_DIFF_LOWER_BOUND
      have he : byteAt rest 0 >>> 0 = byteAt rest 0 := Nat.shiftRight_zero
      rw [he]
      ring_nf
  · intro ht
    refine ⟨_, decodeLoop_luma max fuel rest pixelIndex cur cache h h2 ht, ?_, ?_, ?_,
      rfl, byteAdd_lt _ _, byteAdd_lt _ _, byteAdd_lt _ _⟩
    · rw [byteAdd_eq]
      unfold QOI_LUMA_RED_BLUE_LOWER_BOUND QOI_LUMA_GREEN_LOWER_BOUND
      ring_nf
    · rw [byteAdd_eq]
      unfold QOI_LUMA_GREEN_LOWER_BOUND
      ring_nf
    · rw [byteAdd_eq]
      unfold QOI_LUMA_RED_BLUE_LOWER_BOUND QOI_LUMA_GREEN_LOWER_BOUND
      have he : byteAt rest 1 >>> 0 = byteAt rest 1 := Nat.shiftRight_zero
      rw [he]
      ring_nf

/-- Witness for C10: a small-diff chunk `0x6B` (deltas `(0, 0, 1)`) and a
luma chunk `0x94 0x59` decoded against the initial register. -/
theorem c10_diff_luma_wraparound_witness :
    ((0x6B : Nat) &&& QOI_SMALL_TAG_MASK = QOI_OP_DIFF) ∧
    ((0x94 : Nat) &&& QOI_SMALL_TAG_MASK = QOI_OP_LUMA) ∧
    (∃ p : QoiPixel,
      decodeLoop 2 (0 + 1) [0x6B, 0, 0, 0, 0, 0, 0, 1] 0 qoiInitPixel [] =
        prependPixels [p]
          (decodeLoop 2 0 ([0x6B, 0, 0, 0, 0, 0, 0, 1].drop 1) (0 + 1) p
            (([] : List QoiPixel).set (qoi_pixel_hash p) p)) ∧
      (p.red : Int) =
        ((qoiInitPixel.red : Int) +
          (((((byteAt [0x6B, 0, 0, 0, 0, 0, 0, 1] 0) >>> 4) &&& 0x03 : Nat) : Int) - 2)) % 256 ∧
      (p.green : Int) =
        ((qoiInitPixel.green : Int) +
          (((((byteAt [0x6B, 0, 0, 0, 0, 0, 0, 1] 0) >>> 2) &&& 0x03 : Nat) : Int) - 2)) % 256 ∧
      (p.blue : Int) =
        ((qoiInitPixel.blue : Int) +
          ((((byteAt [0x6B, 0, 0, 0, 0, 0, 0, 1] 0) &&& 0x03 : Nat) : Int) - 2)) % 256 ∧
      p.alpha = qoiInitPixel.alpha ∧ p.red < 256 ∧ p.green < 256 ∧ p.blue < 256) ∧
    (∃ p : QoiPixel,
      decodeLoop 2 (0 + 1) [0x94, 0x59, 0, 0, 0, 0, 0, 1] 0 qoiInitPixel [] =
        prependPixels [p]
          (decodeLoop 2 0 ([0x94, 0x59, 0, 0, 0, 0, 0, 1].drop 2) (0 + 1) p
            (([] : List QoiPixel).set (qoi_pixel_hash p) p)) ∧
      (p.red : Int) =
        ((qoiInitPixel.red : Int) +
          ((((byteAt [0x94, 0x59, 0, 0, 0, 0, 0, 1] 0) &&& 0x3F : Nat) : Int) - 32) +
          (((((byteAt [0x94, 0x59, 0, 0, 0, 0, 0, 1] 1) >>> 4) &&& 0x0F : Nat) : Int) - 8)) % 256 ∧
      (p.green : Int) =
        ((qoiInitPixel.green : Int) +
          ((((byteAt [0x94, 0x59, 0, 0, 0, 0, 0, 1] 0) &&& 0x3F : Nat) : Int) - 32)) % 256 ∧
      (p.blue : Int) =
        ((qoiInitPixel.blue : Int) +
          ((((byteAt [0x94, 0x59, 0, 0, 0, 0, 0, 1] 0) &&& 0x3F : Nat) : Int) - 32) +
          ((((byteAt [0x94, 0x59, 0, 0, 0, 0, 0, 1] 1) &&& 0x0F : Nat) : Int) - 8)) % 256 ∧
      p.alpha = qoiInitPixel.alpha ∧ p.red < 256 ∧ p.green < 256 ∧ p.blue < 256) := by
  refine ⟨by decide, by decide, ?_, ?_⟩
  · exact (c10_diff_luma_wraparound 2 0 [0x6B, 0, 0, 0, 0, 0, 0, 1] 0 qoiInitPixel []
      (by decide) (by decide)).1 (by decide)
  · exact (c10_diff_luma_wraparound 2 0 [0x94, 0x59, 0, 0, 0, 0, 0, 1] 0 qoiInitPixel []
      (by decide) (by decide)).2 (by decide)

/-! ## Claim C7: cache and previous-register frame effects of every chunk -/

/-- C7: in every decode and encode pass, RGB-literal, RGBA-literal,
small-diff and luma operations continue with the cache updated at exactly
the slot `qoi_pixel_hash new_pixel` and the previous-pixel register set to
the new pixel; index operations continue with the cache untouched and the
referenced cached pixel as new register; run operations continue with both
the cache and the register untouched.  The final part states the slot-level
frame: `cache.set (hash p) p` changes slot `hash p` to `p` and no other
slot. -/
theorem c7_cache_frame_effect :
    (∀ (max fuel : Nat) (rest : List Nat) (pixelIndex : Nat) (cur : QoiPixel)
        (cache : List QoiPixel), pixelIndex < max →
        ¬ rest.length < QOI_END_MARKER_SIZE →
      (byteAt rest 0 = QOI_OP_RGB →
        ∃ p : QoiPixel,
          decodeLoop max (fuel + 1) rest pixelIndex cur cache =
            prependPixels [p]
              (decodeLoop max fuel (rest.drop 4) (pixelIndex + 1) p
                (cache.set (qoi_pixel_hash p) p))) ∧
      (byteAt rest 0 = QOI_OP_RGBA →
        ∃ p : QoiPixel,
          decodeLoop max (fuel + 1) rest pixelIndex cur cache =
            prependPixels [p]
              (decodeLoop max fuel (rest.drop 5) (pixelIndex + 1) p
                (cache.set (qoi_pixel_hash p) p))) ∧
      (byteAt rest 0 &&& QOI_SMALL_TAG_MASK = QOI_OP_DIFF →
        ∃ p : QoiPixel,
          decodeLoop max (fuel + 1) rest pixelIndex cur cache =
            prependPixels [p]
              (decodeLoop max fuel (rest.drop 1) (pixelIndex + 1) p
                (cache.set (qoi_pixel_hash p) p))) ∧
      (byteAt rest 0 &&& QOI_SMALL_TAG_MASK = QOI_OP_LUMA →
        ∃ p : QoiPixel,
          decodeLoop max (fuel + 1) rest pixelIndex cur cache =
            prependPixels [p]
              (decodeLoop max fuel (rest.drop 2) (pixelIndex + 1) p
                (cache.set (qoi_pixel_hash p) p))) ∧
      (byteAt rest 0 &&& QOI_SMALL_TAG_MASK = QOI_OP_INDEX →
        endMarkerAt rest = false →
        decodeLoop max (fuel + 1) rest pixelIndex cur cache =
          prependPixels [cache.getD (byteAt rest 0 &&& 0x3F) qoiZeroPixel]
            (decodeLoop max fuel (rest.drop 1) (pixelIndex + 1)
              (cache.getD (byteAt rest 0 &&& 0x3F) qoiZeroPixel) cache)) ∧
      (byteAt rest 0 &&& QOI_SMALL_TAG_MASK = QOI_OP_RUN →
        byteAt rest 0 ≠ QOI_OP_RGB → byteAt rest 0 ≠ QOI_OP_RGBA →
        decodeLoop max (fuel + 1) rest pixelIndex cur cache =
          prependPixels (List.replicate ((byteAt rest 0 &&& 0x3F) + 1) cur)
            (decodeLoop max fuel (rest.drop 1)
              (pixelIndex + ((byteAt rest 0 &&& 0x3F) + 1)) cur cache))) ∧
    (∀ (pixels : List QoiPixel) (max : Nat) (ha : Bool) (fuel pixelIndex : Nat)
        (prev cur : QoiPixel) (cache : List QoiPixel), pixelIndex < max →
        pixels.getD pixelIndex qoiZeroPixel = cur →
      (qoi_pixel_equal prev cur = true →
        encodeLoop pixels max ha (fuel + 1) pixelIndex prev cache =
          (encodeRunLoop pixels max prev (fuel + 1) pixelIndex 0).2 ++
            encodeLoop pixels max ha fuel
              (encodeRunLoop pixels max prev (fuel + 1) pixelIndex 0).1 prev cache) ∧
      (qoi_pixel_equal prev cur = false →
        qoi_pixel_equal cur (cache.getD (qoi_pixel_hash cur) qoiZeroPixel) = true →
        encodeLoop pixels max ha (fuel + 1) pixelIndex prev cache =
          (QOI_OP_INDEX ||| qoi_pixel_hash cur) ::
            encodeLoop pixels max ha fuel (pixelIndex + 1) cur cache) ∧
      (qoi_pixel_equal prev cur = false →
        qoi_pixel_equal cur (cache.getD (qoi_pixel_hash cur) qoiZeroPixel) = false →
        ((!ha) || cur.alpha == prev.alpha) = true →
        ∃ bs : List Nat,
          encodeLoop pixels max ha (fuel + 1) pixelIndex prev cache =
            bs ++ encodeLoop pixels max ha fuel (pixelIndex + 1) cur
              (cache.set (qoi_pixel_hash cur) cur)) ∧
      (qoi_pixel_equal prev cur = false →
        qoi_pixel_equal cur (cache.getD (qoi_pixel_hash cur) qoiZeroPixel) = false →
        ((!ha) || cur.alpha == prev.alpha) = false →
        encodeLoop pixels max ha (fuel + 1) pixelIndex prev cache =
          QOI_OP_RGBA :: cur.red :: cur.green :: cur.blue :: cur.alpha ::
            encodeLoop pixels max ha fuel (pixelIndex + 1) cur
              (cache.set (qoi_pixel_hash cur) cur))) ∧
    (∀ (cache : List QoiPixel) (p : QoiPixel), cache.length = 64 →
      (cache.set (qoi_pixel_hash p) p).getD (qoi_pixel_hash p) qoiZeroPixel = p ∧
      (∀ j, j ≠ qoi_pixel_hash p →
        (cache.set (qoi_pixel_hash p) p).getD j qoiZeroPixel =
          cache.getD j qoiZeroPixel) ∧
      (cache.set (qoi_pixel_hash p) p).length = 64) := by
  refine ⟨?_, ?_, ?_⟩
  · intro max fuel rest pixelIndex cur cache h h2
    refine ⟨?_, ?_, ?_, ?_, ?_, ?_⟩
    · intro ht
      exact ⟨_, decodeLoop_rgb max fuel rest pixelIndex cur cache h h2 ht⟩
    · intro ht
      exact ⟨_, decodeLoop_rgba max fuel rest pixelIndex cur cache h h2 ht⟩
    · intro ht
      exact ⟨_, decodeLoop_diff max fuel rest pixelIndex cur cache h h2 ht⟩
    · intro ht
      exact ⟨_, decodeLoop_luma max fuel rest pixelIndex cur cache h h2 ht⟩
    · intro ht hm
      exact decodeLoop_index max fuel rest pixelIndex cur cache h h2 ht hm
    · intro ht ht1 ht2
      exact decodeLoop_run max fuel rest pixelIndex cur cache h h2 ht ht1 ht2
  · intro pixels max ha fuel pixelIndex prev cur cache h hcur
    refine ⟨?_, ?_, ?_, ?_⟩
    · intro heq
      exact encodeLoop_run pixels max ha fuel pixelIndex prev cache h (hcur ▸ heq)
    · intro hne hidx
      exact encodeLoop_index pixels max ha fuel pixelIndex prev cur cache h hcur hne hidx
    · intro hne hidx halpha
      by_cases hd : QOI_DIFF_LOWER_BOUND ≤ (cur.red : Int) - (prev.red : Int) ∧
          (cur.red : Int) - (prev.red : Int) ≤ QOI_DIFF_UPPER_BOUND ∧
          QOI_DIFF_LOWER_BOUND ≤ (cur.green : Int) - (prev.green : Int) ∧
          (cur.green : Int) - (prev.green : Int) ≤ QOI_DIFF_UPPER_BOUND ∧
          QOI_DIFF_LOWER_BOUND ≤ (cur.blue : Int) - (prev.blue : Int) ∧
          (cur.blue : Int) - (prev.blue : Int) ≤ QOI_DIFF_UPPER_BOUND
      · exact ⟨[QOI_OP_DIFF |||
            ((((cur.red : Int) - (prev.red : Int)) - QOI_DIFF_LOWER_BOUND).toNat <<< 4) |||
            ((((cur.green : Int) - (prev.green : Int)) - QOI_DIFF_LOWER_BOUND).toNat <<< 2) |||
            (((cur.blue : Int) - (prev.blue : Int)) - QOI_DIFF_LOWER_BOUND).toNat],
          encodeLoop_diff pixels max ha fuel pixelIndex prev cur cache h hcur
            hne hidx halpha hd⟩
      · by_cases hl : QOI_LUMA_GREEN_LOWER_BOUND ≤ (cur.green : Int) - (prev.green : Int) ∧
            (cur.green : Int) - (prev.green : Int) ≤ QOI_LUMA_GREEN_UPPER_BOUND ∧
            QOI_LUMA_RED_BLUE_LOWER_BOUND ≤
              ((cur.red : Int) - (prev.red : Int)) - ((cur.green : Int) - (prev.green : Int)) ∧
            ((cur.red : Int) - (prev.red : Int)) - ((cur.green : Int) - (prev.green : Int)) ≤
              QOI_LUMA_RED_BLUE_UPPER_BOUND ∧
            QOI_LUMA_RED_BLUE_LOWER_BOUND ≤
              ((cur.blue : Int) - (prev.blue : Int)) - ((cur.green : Int) - (prev.green : Int)) ∧
            ((cur.blue : Int) - (prev.blue : Int)) - ((cur.green : Int) - (prev.green : Int)) ≤
              QOI_LUMA_RED_BLUE_UPPER_BOUND
        · exact ⟨[QOI_OP_LUMA |||
              (((cur.green : Int) - (prev.green : Int)) - QOI_LUMA_GREEN_LOWER_BOUND).toNat,
              ((((cur.red : Int) - (prev.red : Int)) - ((cur.green : Int) - (prev.green : Int)) -
                  QOI_LUMA_RED_BLUE_LOWER_BOUND).toNat <<< 4) |||
                (((cur.blue : Int) - (prev.blue : Int)) - ((cur.green : Int) - (prev.green : Int)) -
                  QOI_LUMA_RED_BLUE_LOWER_BOUND).toNat],
            encodeLoop_luma pixels max ha fuel pixelIndex prev cur cache h hcur
              hne hidx halpha hd hl⟩
        · exact ⟨[QOI_OP_RGB, cur.red, cur.green, cur.blue],
            encodeLoop_rgbLit pixels max ha fuel pixelIndex prev cur cache h hcur
              hne hidx halpha hd hl⟩
    · intro hne hidx halpha
      exact encodeLoop_rgbaLit pixels max ha fuel pixelIndex prev cur cache h hcur
        hne hidx halpha
  · intro cache p hlen
    refine ⟨?_, ?_, ?_⟩
    · exact getD_set_self cache _ p qoiZeroPixel (by
        rw [hlen]
        exact qoi_pixel_hash_lt p)
    · intro j hj
      exact getD_set_ne cache _ j p qoiZeroPixel (fun hc => hj hc.symm)
    · simp [hlen]

/-- Witness for C7: the run conjunct of the decoder part at a concrete run
chunk, the run conjunct of the encoder part at a concrete 2-pixel image, and
the slot-frame part at the fresh cache. -/
theorem c7_cache_frame_effect_witness :
    (decodeLoop 3 (0 + 1) [0xC1, 0, 0, 0, 0, 0, 0, 1] 0 qoiInitPixel [] =
      prependPixels
        (List.replicate ((byteAt [0xC1, 0, 0, 0, 0, 0, 0, 1] 0 &&& 0x3F) + 1) qoiInitPixel)
        (decodeLoop 3 0 ([0xC1, 0, 0, 0, 0, 0, 0, 1].drop 1)
          (0 + (byteAt [0xC1, 0, 0, 0, 0, 0, 0, 1] 0 &&& 0x3F) + 1) qoiInitPixel [])) ∧
    (encodeLoop [qoiInitPixel, qoiInitPixel] 2 true (1 + 1) 0 qoiInitPixel [] =
      (encodeRunLoop [qoiInitPixel, qoiInitPixel] 2 qoiInitPixel (1 + 1) 0 0).2 ++
        encodeLoop [qoiInitPixel, qoiInitPixel] 2 true 1
          (encodeRunLoop [qoiInitPixel, qoiInitPixel] 2 qoiInitPixel (1 + 1) 0 0).1
          qoiInitPixel []) ∧
    ((List.replicate 64 qoiZeroPixel).set (qoi_pixel_hash qoiInitPixel) qoiInitPixel).getD
      (qoi_pixel_hash qoiInitPixel) qoiZeroPixel = qoiInitPixel := by
  refine ⟨?_, ?_, ?_⟩
  · have h := ((c7_cache_frame_effect.1 3 0 [0xC1, 0, 0, 0, 0, 0, 0, 1] 0 qoiInitPixel []
      (by decide) (by decide)).2.2.2.2.2) (by decide) (by decide) (by decide)
    simpa using h
  · exact (c7_cache_frame_effect.2.1 [qoiInitPixel, qoiInitPixel] 2 true 1 0
      qoiInitPixel qoiInitPixel [] (by decide) (by decide)).1 (by decide)
  · exact (c7_cache_frame_effect.2.2 (List.replicate 64 qoiZeroPixel) qoiInitPixel
      (by decide)).1

/-! ## Claim C6: run coalescing -/

/-- The stored run lengths the encoder flushes for a maximal run of `n`
pixels: chunks of exactly 62 until the remainder fits in one final chunk of
1..62 (formalizing the spec's description of run flushing). -/
def runLengthsAux : Nat → Nat → List Nat
  | 0, n => [n]
  | f + 1, n => if n ≤ 62 then [n] else 62 :: runLengthsAux f (n - 62)

def runLengths (n : Nat) : List Nat := runLengthsAux n n

theorem runLengthsAux_congr : ∀ f g n, n ≤ f → n ≤ g →
    runLengthsAux f n = runLengthsAux g n := by
  intro f
  induction f with
  | zero =>
    intro g n hf _
    interval_cases n
    cases g <;> simp [runLengthsAux]
  | succ f ih =>
    intro g n hf hg
    cases g with
    | zero =>
      interval_cases n
      simp [runLengthsAux]
    | succ g =>
      by_cases h : n ≤ 62
      · simp [runLengthsAux, h]
      · simp only [runLengthsAux, if_neg h]
        rw [ih g (n - 62) (by omega) (by omega)]

theorem runLengths_of_le {n : Nat} (h : n ≤ 62) : runLengths n = [n] := by
  cases n with
  | zero => rfl
  | succ m => simp [runLengths, runLengthsAux, h]

theorem runLengths_of_gt {n : Nat} (h : 62 < n) :
    runLengths n = 62 :: runLengths (n - 62) := by
  unfold runLengths
  cases n with
  | zero => omega
  | succ m =>
    simp only [runLengthsAux, if_neg (by omega : ¬ m + 1 ≤ 62)]
    rw [runLengthsAux_congr m (m + 1 - 62) (m + 1 - 62) (by omega) (by omega)]

/-- General characterization of the encoder's run loop: starting with `run`
pixels already counted into the current chunk and a maximal remaining run of
`n` pixels equal to `prev` (the pixel after it, if any, differs), the loop
consumes exactly those `n` pixels and flushes the chunks described by
`runLengths (run + n)`, each stored biased by -1. -/
theorem encodeRunLoop_spec (pixels : List QoiPixel) (max : Nat) (prev : QoiPixel) :
    ∀ (fuel pixelIndex run n : Nat),
      1 ≤ n → pixelIndex + n ≤ max →
      (∀ j, j < n → pixels.getD (pixelIndex + j) qoiZeroPixel = prev) →
      (pixelIndex + n = max ∨
        qoi_pixel_equal prev (pixels.getD (pixelIndex + n) qoiZeroPixel) = false) →
      run ≤ 61 → n ≤ fuel →
      encodeRunLoop pixels max prev fuel pixelIndex run =
        (pixelIndex + n,
          (runLengths (run + n)).map (fun k => QOI_OP_RUN ||| (k - 1))) := by
  intro fuel
  induction fuel with
  | zero =>
    intro pixelIndex run n hn _ _ _ _ hfuel
    omega
  | succ fuel ih =>
    intro pixelIndex run n hn hbound hrun hend hr hfuel
    rcases Nat.lt_or_ge n 2 with h2 | h2
    · -- n = 1: the loop consumes the last pixel of the run and flushes.
      have hn1 : n = 1 := by omega
      subst hn1
      have hpn : (decide (pixelIndex + 1 < max) &&
          qoi_pixel_equal prev (pixels.getD (pixelIndex + 1) qoiZeroPixel)) = false := by
        rcases hend with hend | hend
        · rw [hend]
          simp
        · rw [hend, Bool.and_false]
      simp only [encodeRunLoop, hpn]
      rw [if_pos (Or.inr trivial), if_neg (by decide : ¬ false = true)]
      rw [runLengths_of_le (by omega : run + 1 ≤ 62)]
      rfl
    · -- n ≥ 2: the next pixel still belongs to the run.
      have hlt : pixelIndex + 1 < max := by omega
      have heq1 : pixels.getD (pixelIndex + 1) qoiZeroPixel = prev := hrun 1 (by omega)
      have hpn : (decide (pixelIndex + 1 < max) &&
          qoi_pixel_equal prev (pixels.getD (pixelIndex + 1) qoiZeroPixel)) = true := by
        rw [heq1]
        simp [hlt, qoi_pixel_equal_iff]
      by_cases h62 : run + 1 = QOI_MAX_RUN_LENGTH
      · -- flush a full chunk of 62 and restart the counter
        have ih1 := ih (pixelIndex + 1) 0 (n - 1) (by omega) (by omega)
          (fun j hj => by
            have := hrun (j + 1) (by omega)
            simpa [Nat.add_assoc, Nat.add_comm 1 j] using this)
          (by
            rcases hend with hend | hend
            · exact Or.inl (by omega)
            · right
              have : pixelIndex + 1 + (n - 1) = pixelIndex + n := by omega
              rw [this]
              exact hend)
          (by omega) (by omega)
        have hrun61 : run = 61 := by
          unfold QOI_MAX_RUN_LENGTH at h62
          omega
        simp only [encodeRunLoop, hpn, if_pos (Or.inl h62), ih1]
        rw [if_pos trivial]
        have harg : run + n - 62 = n - 1 := by omega
        have hR : runLengths (run + n) = 62 :: runLengths (n - 1) := by
          rw [runLengths_of_gt (by omega), harg]
        rw [hR]
        simp only [Nat.zero_add, List.map_cons]
        have hpi : pixelIndex + 1 + (n - 1) = pixelIndex + n := by omega
        rw [hpi, hrun61]
      · -- keep extending the current chunk
        have h62' : run + 1 ≠ 62 := by
          unfold QOI_MAX_RUN_LENGTH at h62
          omega
        have ih1 := ih (pixelIndex + 1) (run + 1) (n - 1) (by omega) (by omega)
          (fun j hj => by
            have := hrun (j + 1) (by omega)
            simpa [Nat.add_assoc, Nat.add_comm 1 j] using this)
          (by
            rcases hend with hend | hend
            · exact Or.inl (by omega)
            · right
              have : pixelIndex + 1 + (n - 1) = pixelIndex + n := by omega
              rw [this]
              exact hend)
          (by omega) (by omega)
        have hcond : ¬ (run + 1 = QOI_MAX_RUN_LENGTH ∨
            (decide (pixelIndex + 1 < max) &&
              qoi_pixel_equal prev (pixels.getD (pixelIndex + 1) qoiZeroPixel)) = false) := by
          rw [hpn]
          simp [h62]
        simp only [encodeRunLoop, if_neg hcond, ih1]
        have hpi : pixelIndex + 1 + (n - 1) = pixelIndex + n := by omega
        have hrn : run + 1 + (n - 1) = run + n := by omega
        rw [hpi, hrn]

/-- C6: a maximal run of `n ≥ 1` pixels equal to the previous-pixel register
(the pixel after the run, if any, differs) is flushed by the encoder's run
loop as exactly the chunks `runLengths n`: chunks of exactly 62 until the
remainder fits in one final chunk of 1..62, each emitted as `QOI_OP_RUN`
with the length stored biased by -1 (so a run of 62 is one chunk with stored
length 61, and 63 is a stored-61 chunk followed by a stored-0 chunk). -/
theorem c6_run_coalescing (pixels : List QoiPixel) (max : Nat) (prev : QoiPixel)
    (fuel pixelIndex n : Nat)
    (hn : 1 ≤ n) (hbound : pixelIndex + n ≤ max)
    (hrun : ∀ j, j < n → pixels.getD (pixelIndex + j) qoiZeroPixel = prev)
    (hend : pixelIndex + n = max ∨
      qoi_pixel_equal prev (pixels.getD (pixelIndex + n) qoiZeroPixel) = false)
    (hfuel : n ≤ fuel) :
    encodeRunLoop pixels max prev fuel pixelIndex 0 =
      (pixelIndex + n,
        (runLengths n).map (fun k => QOI_OP_RUN ||| (k - 1))) := by
  have h := encodeRunLoop_spec pixels max prev fuel pixelIndex 0 n hn hbound hrun hend
    (by omega) hfuel
  simpa using h

/-- Witness for C6: 62 identical pixels followed by a different one flush as
the single chunk `0xFD` (stored length 61); 63 identical pixels flush as
`0xFD` then `0xC0` (stored lengths 61 and 0). -/
theorem c6_run_coalescing_witness :
    encodeRunLoop (List.replicate 62 qoiInitPixel ++ [⟨9, 9, 9, 255⟩]) 63 qoiInitPixel
        63 0 0 = (62, [0xFD]) ∧
    encodeRunLoop (List.replicate 63 qoiInitPixel) 63 qoiInitPixel 63 0 0 =
      (63, [0xFD, 0xC0]) := by
  constructor
  · have h := c6_run_coalescing (List.replicate 62 qoiInitPixel ++ [⟨9, 9, 9, 255⟩]) 63
      qoiInitPixel 63 0 62 (by decide) (by decide) (by decide) (by decide) (by decide)
    rw [h]
    rfl
  · have h := c6_run_coalescing (List.replicate 63 qoiInitPixel) 63
      qoiInitPixel 63 0 63 (by decide) (by decide) (by decide) (by decide) (by decide)
    rw [h]
    rfl

/-! ## Claim C4: encoder totality and output-size bound -/

theorem encodeRunLoop_le (pixels : List QoiPixel) (max : Nat) (prev : QoiPixel) :
    ∀ (fuel pixelIndex run : Nat),
      pixelIndex ≤ (encodeRunLoop pixels max prev fuel pixelIndex run).1 ∧
      (encodeRunLoop pixels max prev fuel pixelIndex run).2.length ≤
        (encodeRunLoop pixels max prev fuel pixelIndex run).1 - pixelIndex := by
  intro fuel
  induction fuel with
  | zero => intro pixelIndex run; simp [encodeRunLoop]
  | succ fuel ih =>
    intro pixelIndex run
    simp only [encodeRunLoop]
    generalize hb : (decide (pixelIndex + 1 < max) &&
      qoi_pixel_equal prev (pixels.getD (pixelIndex + 1) qoiZeroPixel)) = b
    cases b with
    | false =>
      rw [if_pos (Or.inr rfl), if_neg (by decide : ¬ false = true)]
      simp
    | true =>
      by_cases h62 : run + 1 = QOI_MAX_RUN_LENGTH
      · rw [if_pos (Or.inl h62), if_pos rfl]
        have := ih (pixelIndex + 1) 0
        constructor
        · omega
        · simp only [List.length_cons]
          omega
      · rw [if_neg (by simp [h62])]
        have := ih (pixelIndex + 1) (run + 1)
        constructor
        · omega
        · omega

theorem encodeRunLoop_max (pixels : List QoiPixel) (max : Nat) (prev : QoiPixel) :
    ∀ (fuel pixelIndex run : Nat), pixelIndex < max →
      (encodeRunLoop pixels max prev fuel pixelIndex run).1 ≤ max := by
  intro fuel
  induction fuel with
  | zero => intro pixelIndex run h; simpa [encodeRunLoop] using h.le
  | succ fuel ih =>
    intro pixelIndex run h
    simp only [encodeRunLoop]
    by_cases hlt : pixelIndex + 1 < max
    · generalize hb : (decide (pixelIndex + 1 < max) &&
        qoi_pixel_equal prev (pixels.getD (pixelIndex + 1) qoiZeroPixel)) = b
      cases b with
      | false =>
        rw [if_pos (Or.inr rfl), if_neg (by decide : ¬ false = true)]
        omega
      | true =>
        by_cases h62 : run + 1 = QOI_MAX_RUN_LENGTH
        · rw [if_pos (Or.inl h62), if_pos rfl]
          exact ih (pixelIndex + 1) 0 hlt
        · rw [if_neg (by simp [h62])]
          exact ih (pixelIndex + 1) (run + 1) hlt
    · have hb : (decide (pixelIndex + 1 < max) &&
        qoi_pixel_equal prev (pixels.getD (pixelIndex + 1) qoiZeroPixel)) = false := by
        simp [hlt]
      rw [hb, if_pos (Or.inr rfl), if_neg (by decide : ¬ false = true)]
      omega

theorem encodeRunLoop_lt (pixels : List QoiPixel) (max : Nat) (prev : QoiPixel)
    (fuel pixelIndex run : Nat) :
    pixelIndex < (encodeRunLoop pixels max prev (fuel + 1) pixelIndex run).1 := by
  simp only [encodeRunLoop]
  generalize hb : (decide (pixelIndex + 1 < max) &&
    qoi_pixel_equal prev (pixels.getD (pixelIndex + 1) qoiZeroPixel)) = b
  cases b with
  | false =>
    rw [if_pos (Or.inr rfl), if_neg (by decide : ¬ false = true)]
    omega
  | true =>
    by_cases h62 : run + 1 = QOI_MAX_RUN_LENGTH
    · rw [if_pos (Or.inl h62), if_pos rfl]
      have := (encodeRunLoop_le pixels max prev fuel (pixelIndex + 1) 0).1
      omega
    · rw [if_neg (by simp [h62])]
      have := (encodeRunLoop_le pixels max prev fuel (pixelIndex + 1) (run + 1)).1
      omega

theorem run_byte_bounds : ∀ r : Nat, r < 62 →
    192 ≤ QOI_OP_RUN ||| r ∧ QOI_OP_RUN ||| r ≤ 253 := by decide

theorem encodeRunLoop_bytes (pixels : List QoiPixel) (max : Nat) (prev : QoiPixel) :
    ∀ (fuel pixelIndex run : Nat), run ≤ 61 →
      ∀ b ∈ (encodeRunLoop pixels max prev fuel pixelIndex run).2,
        192 ≤ b ∧ b ≤ 253 := by
  intro fuel
  induction fuel with
  | zero => intro pixelIndex run _ b hb; simp [encodeRunLoop] at hb
  | succ fuel ih =>
    intro pixelIndex run hr b hb
    simp only [encodeRunLoop] at hb
    revert hb
    generalize hbcond : (decide (pixelIndex + 1 < max) &&
      qoi_pixel_equal prev (pixels.getD (pixelIndex + 1) qoiZeroPixel)) = c
    cases c with
    | false =>
      rw [if_pos (Or.inr rfl), if_neg (by decide : ¬ false = true)]
      intro hb
      simp only [List.mem_singleton] at hb
      subst hb
      exact run_byte_bounds run (by omega)
    | true =>
      by_cases h62 : run + 1 = QOI_MAX_RUN_LENGTH
      · rw [if_pos (Or.inl h62), if_pos rfl]
        intro hb
        rcases List.mem_cons.mp hb with hb | hb
        · subst hb
          exact run_byte_bounds run (by omega)
        · exact ih (pixelIndex + 1) 0 (by omega) b hb
      · rw [if_neg (by simp [h62])]
        intro hb
        exact ih (pixelIndex + 1) (run + 1)
          (by unfold QOI_MAX_RUN_LENGTH at h62; omega) b hb

/-- The chunk loop emits at most `QOI_MAX_BYTES_PER_PIXEL` bytes per encoded
pixel (this is what makes the C allocation of line 316 safe). -/
theorem encodeLoop_length (pixels : List QoiPixel) (max : Nat) (ha : Bool) :
    ∀ (fuel pixelIndex : Nat) (prev : QoiPixel) (cache : List QoiPixel),
      (encodeLoop pixels max ha fuel pixelIndex prev cache).length ≤
        5 * (max - pixelIndex) := by
  intro fuel
  induction fuel with
  | zero => intro pixelIndex prev cache; simp [encodeLoop]
  | succ fuel ih =>
    intro pixelIndex prev cache
    by_cases h : pixelIndex < max
    · cases heq : qoi_pixel_equal prev (pixels.getD pixelIndex qoiZeroPixel) with
      | true =>
        rw [encodeLoop_run pixels max ha fuel pixelIndex prev cache h heq]
        have h1 := encodeRunLoop_le pixels max prev (fuel + 1) pixelIndex 0
        have h2 := encodeRunLoop_max pixels max prev (fuel + 1) pixelIndex 0 h
        have h3 := encodeRunLoop_lt pixels max prev fuel pixelIndex 0
        have h4 := ih (encodeRunLoop pixels max prev (fuel + 1) pixelIndex 0).1 prev cache
        rw [List.length_append]
        omega
      | false =>
        cases hidx : qoi_pixel_equal (pixels.getD pixelIndex qoiZeroPixel)
            (cache.getD (qoi_pixel_hash (pixels.getD pixelIndex qoiZeroPixel)) qoiZeroPixel) with
        | true =>
          rw [encodeLoop_index pixels max ha fuel pixelIndex prev
            (pixels.getD pixelIndex qoiZeroPixel) cache h rfl heq hidx]
          have h4 := ih (pixelIndex + 1) (pixels.getD pixelIndex qoiZeroPixel) cache
          simp only [List.length_cons]
          omega
        | false =>
          cases halpha : ((!ha) ||
              (pixels.getD pixelIndex qoiZeroPixel).alpha == prev.alpha) with
          | true =>
            by_cases hd : QOI_DIFF_LOWER_BOUND ≤
                ((pixels.getD pixelIndex qoiZeroPixel).red : Int) - (prev.red : Int) ∧
                ((pixels.getD pixelIndex qoiZeroPixel).red : Int) - (prev.red : Int) ≤
                  QOI_DIFF_UPPER_BOUND ∧
                QOI_DIFF_LOWER_BOUND ≤
                  ((pixels.getD pixelIndex qoiZeroPixel).green : Int) - (prev.green : Int) ∧
                ((pixels.getD pixelIndex qoiZeroPixel).green : Int) - (prev.green : Int) ≤
                  QOI_DIFF_UPPER_BOUND ∧
                QOI_DIFF_LOWER_BOUND ≤
                  ((pixels.getD pixelIndex qoiZeroPixel).blue : Int) - (prev.blue : Int) ∧
                ((pixels.getD pixelIndex qoiZeroPixel).blue : Int) - (prev.blue : Int) ≤
                  QOI_DIFF_UPPER_BOUND
            · rw [encodeLoop_diff pixels max ha fuel pixelIndex prev
                (pixels.getD pixelIndex qoiZeroPixel) cache h rfl heq hidx halpha hd]
              have h4 := ih (pixelIndex + 1) (pixels.getD pixelIndex qoiZeroPixel)
                (cache.set (qoi_pixel_hash (pixels.getD pixelIndex qoiZeroPixel))
                  (pixels.getD pixelIndex qoiZeroPixel))
              simp only [List.length_cons]
              omega
            · by_cases hl : QOI_LUMA_GREEN_LOWER_BOUND ≤
                  ((pixels.getD pixelIndex qoiZeroPixel).green : Int) - (prev.green : Int) ∧
                  ((pixels.getD pixelIndex qoiZeroPixel).green : Int) - (prev.green : Int) ≤
                    QOI_LUMA_GREEN_UPPER_BOUND ∧
                  QOI_LUMA_RED_BLUE_LOWER_BOUND ≤
                    (((pixels.getD pixelIndex qoiZeroPixel).red : Int) - (prev.red : Int)) -
                      (((pixels.getD pixelIndex qoiZeroPixel).green : Int) - (prev.green : Int)) ∧
                  (((pixels.getD pixelIndex qoiZeroPixel).red : Int) - (prev.red : Int)) -
                      (((pixels.getD pixelIndex qoiZeroPixel).green : Int) - (prev.green : Int)) ≤
                    QOI_LUMA_RED_BLUE_UPPER_BOUND ∧
                  QOI_LUMA_RED_BLUE_LOWER_BOUND ≤
                    (((pixels.getD pixelIndex qoiZeroPixel).blue : Int) - (prev.blue : Int)) -
                      (((pixels.getD pixelIndex qoiZeroPixel).green : Int) - (prev.green : Int)) ∧
                  (((pixels.getD pixelIndex qoiZeroPixel).blue : Int) - (prev.blue : Int)) -
                      (((pixels.getD pixelIndex qoiZeroPixel).green : Int) - (prev.green : Int)) ≤
                    QOI_LUMA_RED_BLUE_UPPER_BOUND
              · rw [encodeLoop_luma pixels max ha fuel pixelIndex prev
                  (pixels.getD pixelIndex qoiZeroPixel) cache h rfl heq hidx halpha hd hl]
                have h4 := ih (pixelIndex + 1) (pixels.getD pixelIndex qoiZeroPixel)
                  (cache.set (qoi_pixel_hash (pixels.getD pixelIndex qoiZeroPixel))
                    (pixels.getD pixelIndex qoiZeroPixel))
                simp only [List.length_cons]
                omega
              · rw [encodeLoop_rgbLit pixels max ha fuel pixelIndex prev
                  (pixels.getD pixelIndex qoiZeroPixel) cache h rfl heq hidx halpha hd hl]
                have h4 := ih (pixelIndex + 1) (pixels.getD pixelIndex qoiZeroPixel)
                  (cache.set (qoi_pixel_hash (pixels.getD pixelIndex qoiZeroPixel))
                    (pixels.getD pixelIndex qoiZeroPixel))
                simp only [List.length_cons]
                omega
          | false =>
            rw [encodeLoop_rgbaLit pixels max ha fuel pixelIndex prev
              (pixels.getD pixelIndex qoiZeroPixel) cache h rfl heq hidx halpha]
            have h4 := ih (pixelIndex + 1) (pixels.getD pixelIndex qoiZeroPixel)
              (cache.set (qoi_pixel_hash (pixels.getD pixelIndex qoiZeroPixel))
                (pixels.getD pixelIndex qoiZeroPixel))
            simp only [List.length_cons]
            omega
    · rw [encodeLoop_done pixels max ha (fuel + 1) pixelIndex prev cache h]
      simp

theorem index_byte_lt : ∀ h : Nat, h < 64 → QOI_OP_INDEX ||| h < 256 := by decide

theorem diff_byte_lt : ∀ a : Nat, a < 4 → ∀ b : Nat, b < 4 → ∀ c : Nat, c < 4 →
    QOI_OP_DIFF ||| (a <<< 4) ||| (b <<< 2) ||| c < 256 := by decide

theorem luma_byte1_lt : ∀ g : Nat, g < 64 → QOI_OP_LUMA ||| g < 256 := by decide

theorem luma_byte2_lt : ∀ x : Nat, x < 16 → ∀ y : Nat, y < 16 →
    (x <<< 4) ||| y < 256 := by decide

theorem wf_getD (pixels : List QoiPixel) (hwf : ∀ p ∈ pixels, p.wf) :
    ∀ i, (pixels.getD i qoiZeroPixel).wf := by
  induction pixels with
  | nil =>
    intro i
    have h : (List.getD ([] : List QoiPixel) i qoiZeroPixel) = qoiZeroPixel := by
      cases i <;> rfl
    rw [h]
    decide
  | cons x xs ih =>
    intro i
    cases i with
    | zero =>
      rw [List.getD_cons_zero]
      exact hwf x (by simp)
    | succ n =>
      rw [List.getD_cons_succ]
      exact ih (fun p hp => hwf p (by simp [hp])) n

/-- Every byte the chunk loop emits is a genuine octet. -/
theorem encodeLoop_bytes (pixels : List QoiPixel) (max : Nat) (ha : Bool)
    (hwf : ∀ p ∈ pixels, p.wf) :
    ∀ (fuel pixelIndex : Nat) (prev : QoiPixel) (cache : List QoiPixel),
      ∀ b ∈ encodeLoop pixels max ha fuel pixelIndex prev cache, b < 256 := by
  intro fuel
  induction fuel with
  | zero => intro pixelIndex prev cache b hb; simp [encodeLoop] at hb
  | succ fuel ih =>
    intro pixelIndex prev cache b hb
    by_cases h : pixelIndex < max
    · cases heq : qoi_pixel_equal prev (pixels.getD pixelIndex qoiZeroPixel) with
      | true =>
        rw [encodeLoop_run pixels max ha fuel pixelIndex prev cache h heq] at hb
        rcases List.mem_append.mp hb with hb | hb
        · have := encodeRunLoop_bytes pixels max prev (fuel + 1) pixelIndex 0
            (by omega) b hb
          omega
        · exact ih _ prev cache b hb
      | false =>
        cases hidx : qoi_pixel_equal (pixels.getD pixelIndex qoiZeroPixel)
            (cache.getD (qoi_pixel_hash (pixels.getD pixelIndex qoiZeroPixel)) qoiZeroPixel) with
        | true =>
          rw [encodeLoop_index pixels max ha fuel pixelIndex prev
            (pixels.getD pixelIndex qoiZeroPixel) cache h rfl heq hidx] at hb
          rcases List.mem_cons.mp hb with hb | hb
          · subst hb
            exact index_byte_lt _ (qoi_pixel_hash_lt _)
          · exact ih _ _ cache b hb
        | false =>
          cases halpha : ((!ha) ||
              (pixels.getD pixelIndex qoiZeroPixel).alpha == prev.alpha) with
          | true =>
            by_cases hd : QOI_DIFF_LOWER_BOUND ≤
                ((pixels.getD pixelIndex qoiZeroPixel).red : Int) - (prev.red : Int) ∧
                ((pixels.getD pixelIndex qoiZeroPixel).red : Int) - (prev.red : Int) ≤
                  QOI_DIFF_UPPER_BOUND ∧
                QOI_DIFF_LOWER_BOUND ≤
                  ((pixels.getD pixelIndex qoiZeroPixel).green : Int) - (prev.green : Int) ∧
                ((pixels.getD pixelIndex qoiZeroPixel).green : Int) - (prev.green : Int) ≤
                  QOI_DIFF_UPPER_BOUND ∧
                QOI_DIFF_LOWER_BOUND ≤
                  ((pixels.getD pixelIndex qoiZeroPixel).blue : Int) - (prev.blue : Int) ∧
                ((pixels.getD pixelIndex qoiZeroPixel).blue : Int) - (prev.blue : Int) ≤
                  QOI_DIFF_UPPER_BOUND
            · rw [encodeLoop_diff pixels max ha fuel pixelIndex prev
                (pixels.getD pixelIndex qoiZeroPixel) cache h rfl heq hidx halpha hd] at hb
              rcases List.mem_cons.mp hb with hb | hb
              · subst hb
                have h1 : (((pixels.getD pixelIndex qoiZeroPixel).red : Int) -
                    (prev.red : Int) - QOI_DIFF_LOWER_BOUND).toNat < 4 := by
                  unfold QOI_DIFF_LOWER_BOUND QOI_DIFF_UPPER_BOUND at hd
                  unfold QOI_DIFF_LOWER_BOUND
                  omega
                have h2 : (((pixels.getD pixelIndex qoiZeroPixel).green : Int) -
                    (prev.green : Int) - QOI_DIFF_LOWER_BOUND).toNat < 4 := by
                  unfold QOI_DIFF_LOWER_BOUND QOI_DIFF_UPPER_BOUND at hd
                  unfold QOI_DIFF_LOWER_BOUND
                  omega
                have h3 : (((pixels.getD pixelIndex qoiZeroPixel).blue : Int) -
                    (prev.blue : Int) - QOI_DIFF_LOWER_BOUND).toNat < 4 := by
                  unfold QOI_DIFF_LOWER_BOUND QOI_DIFF_UPPER_BOUND at hd
                  unfold QOI_DIFF_LOWER_BOUND
                  omega
                exact diff_byte_lt _ h1 _ h2 _ h3
              · exact ih _ _ _ b hb
            · by_cases hl : QOI_LUMA_GREEN_LOWER_BOUND ≤
                  ((pixels.getD pixelIndex qoiZeroPixel).green : Int) - (prev.green : Int) ∧
                  ((pixels.getD pixelIndex qoiZeroPixel).green : Int) - (prev.green : Int) ≤
                    QOI_LUMA_GREEN_UPPER_BOUND ∧
                  QOI_LUMA_RED_BLUE_LOWER_BOUND ≤
                    (((pixels.getD pixelIndex qoiZeroPixel).red : Int) - (prev.red : Int)) -
                      (((pixels.getD pixelIndex qoiZeroPixel).green : Int) - (prev.green : Int)) ∧
                  (((pixels.getD pixelIndex qoiZeroPixel).red : Int) - (prev.red : Int)) -
                      (((pixels.getD pixelIndex qoiZeroPixel).green : Int) - (prev.green : Int)) ≤
                    QOI_LUMA_RED_BLUE_UPPER_BOUND ∧
                  QOI_LUMA_RED_BLUE_LOWER_BOUND ≤
                    (((pixels.getD pixelIndex qoiZeroPixel).blue : Int) - (prev.blue : Int)) -
                      (((pixels.getD pixelIndex qoiZeroPixel).green : Int) - (prev.green : Int)) ∧
                  (((pixels.getD pixelIndex qoiZeroPixel).blue : Int) - (prev.blue : Int)) -
                      (((pixels.getD pixelIndex qoiZeroPixel).green : Int) - (prev.green : Int)) ≤
                    QOI_LUMA_RED_BLUE_UPPER_BOUND
              · rw [encodeLoop_luma pixels max ha fuel pixelIndex prev
                  (pixels.getD pixelIndex qoiZeroPixel) cache h rfl heq hidx halpha hd hl] at hb
                rcases List.mem_cons.mp hb with hb | hb
                · subst hb
                  have hg : (((pixels.getD pixelIndex qoiZeroPixel).green : Int) -
                      (prev.green : Int) - QOI_LUMA_GREEN_LOWER_BOUND).toNat < 64 := by
                    unfold QOI_LUMA_GREEN_LOWER_BOUND QOI_LUMA_GREEN_UPPER_BOUND at hl
                    unfold QOI_LUMA_GREEN_LOWER_BOUND
                    omega
                  exact luma_byte1_lt _ hg
                · rcases List.mem_cons.mp hb with hb | hb
                  · subst hb
                    have hx : ((((pixels.getD pixelIndex qoiZeroPixel).red : Int) -
                        (prev.red : Int)) -
                        (((pixels.getD pixelIndex qoiZeroPixel).green : Int) -
                          (prev.green : Int)) -
                        QOI_LUMA_RED_BLUE_LOWER_BOUND).toNat < 16 := by
                      unfold QOI_LUMA_RED_BLUE_LOWER_BOUND
                        QOI_LUMA_RED_BLUE_UPPER_BOUND at hl
                      unfold QOI_LUMA_RED_BLUE_LOWER_BOUND
                      omega
                    have hy : ((((pixels.getD pixelIndex qoiZeroPixel).blue : Int) -
                        (prev.blue : Int)) -
                        (((pixels.getD pixelIndex qoiZeroPixel).green : Int) -
                          (prev.green : Int)) -
                        QOI_LUMA_RED_BLUE_LOWER_BOUND).toNat < 16 := by
                      unfold QOI_LUMA_RED_BLUE_LOWER_BOUND
                        QOI_LUMA_RED_BLUE_UPPER_BOUND at hl
                      unfold QOI_LUMA_RED_BLUE_LOWER_BOUND
                      omega
                    exact luma_byte2_lt _ hx _ hy
                  · exact ih _ _ _ b hb
              · rw [encodeLoop_rgbLit pixels max ha fuel pixelIndex prev
                  (pixels.getD pixelIndex qoiZeroPixel) cache h rfl heq hidx halpha hd hl] at hb
                have hwfi := wf_getD pixels hwf pixelIndex
                rcases List.mem_cons.mp hb with hb | hb
                · subst hb; decide
                · rcases List.mem_cons.mp hb with hb | hb
                  · subst hb; exact hwfi.1
                  · rcases List.mem_cons.mp hb with hb | hb
                    · subst hb; exact hwfi.2.1
                    · rcases List.mem_cons.mp hb with hb | hb
                      · subst hb; exact hwfi.2.2.1
                      · exact ih _ _ _ b hb
          | false =>
            rw [encodeLoop_rgbaLit pixels max ha fuel pixelIndex prev
              (pixels.getD pixelIndex qoiZeroPixel) cache h rfl heq hidx halpha] at hb
            have hwfi := wf_getD pixels hwf pixelIndex
            rcases List.mem_cons.mp hb with hb | hb
            · subst hb; decide
            · rcases List.mem_cons.mp hb with hb | hb
              · subst hb; exact hwfi.1
              · rcases List.mem_cons.mp hb with hb | hb
                · subst hb; exact hwfi.2.1
                · rcases List.mem_cons.mp hb with hb | hb
                  · subst hb; exact hwfi.2.2.1
                  · rcases List.mem_cons.mp hb with hb | hb
                    · subst hb; exact hwfi.2.2.2
                    · exact ih _ _ _ b hb
    · rw [encodeLoop_done pixels max ha (fuel + 1) pixelIndex prev cache h] at hb
      simp at hb

/-- C4: the encoder is a total function of the pixel grid — `save_image` is
a Lean function defined on every image — and for every image whose buffer
has length `width * height` the byte sequence it produces never exceeds the
allocated bound `14 + width*height*5 + 8` and consists of genuine octets;
no pixel content can cause a failure. -/
theorem c4_encoder_total_in_bounds (img : QoiImage)
    (hlen : img.pixels.length = img.width * img.height)
    (hwf : ∀ p ∈ img.pixels, p.wf) :
    (save_image img).length ≤
      QOI_HEADER_SIZE + img.width * img.height * QOI_MAX_BYTES_PER_PIXEL +
        QOI_END_MARKER_SIZE ∧
    ∀ b ∈ save_image img, b < 256 := by
  constructor
  · have hbody := encodeLoop_length img.pixels (img.width * img.height % UINT32_MOD)
      img.has_alpha (img.width * img.height % UINT32_MOD) 0 qoiInitPixel
      (List.replicate 64 qoiZeroPixel)
    have hmle : img.width * img.height % UINT32_MOD ≤ img.width * img.height :=
      Nat.mod_le _ _
    unfold save_image
    rw [List.length_append, List.length_append]
    have hhdr : (serialize_header img).length = QOI_HEADER_SIZE := rfl
    have hmark : QOI_END_MARKER.length = QOI_END_MARKER_SIZE := rfl
    rw [hhdr, hmark]
    unfold QOI_MAX_BYTES_PER_PIXEL
    omega
  · intro b hb
    unfold save_image at hb
    rcases List.mem_append.mp hb with hb | hb
    · rcases List.mem_append.mp hb with hb | hb
      · unfold serialize_header at hb
        rcases List.mem_append.mp hb with hb | hb
        · rcases List.mem_append.mp hb with hb | hb
          · rcases List.mem_append.mp hb with hb | hb
            · fin_cases hb <;> decide
            · unfold writeBE32 at hb
              fin_cases hb <;> omega
          · unfold writeBE32 at hb
            fin_cases hb <;> omega
        · rcases List.mem_cons.mp hb with hb | hb
          · subst hb
            cases img.has_alpha <;> simp <;> decide
          · rcases List.mem_cons.mp hb with hb | hb
            · subst hb
              omega
            · simp at hb
      · exact encodeLoop_bytes img.pixels (img.width * img.height % UINT32_MOD)
          img.has_alpha hwf (img.width * img.height % UINT32_MOD) 0 qoiInitPixel
          (List.replicate 64 qoiZeroPixel) b hb
    · fin_cases hb <;> decide

/-- Witness for C4: a concrete 2×1 image. -/
theorem c4_encoder_total_in_bounds_witness :
    (save_image ⟨[⟨1, 2, 3, 4⟩, ⟨250, 251, 252, 253⟩], 2, 1, 1, true⟩).length ≤
      QOI_HEADER_SIZE + 2 * 1 * QOI_MAX_BYTES_PER_PIXEL + QOI_END_MARKER_SIZE ∧
    ∀ b ∈ save_image ⟨[⟨1, 2, 3, 4⟩, ⟨250, 251, 252, 253⟩], 2, 1, 1, true⟩, b < 256 :=
  c4_encoder_total_in_bounds ⟨[⟨1, 2, 3, 4⟩, ⟨250, 251, 252, 253⟩], 2, 1, 1, true⟩
    (by decide) (by decide)

/-! ## Claim C9: the channel byte only affects the alpha-presence flag -/

/-- C9: two byte streams identical except for the channel byte at offset 12
(3 in one, 4 in the other) decode identically — same error, or same pixels,
dimensions and colorspace — except that the alpha-presence flag of the
result follows the channel byte. -/
theorem c9_channels_only_flag (pre post : List Nat) (hpre : pre.length = 12) :
    load_image (pre ++ 4 :: post) =
      (load_image (pre ++ 3 :: post)).map
        (fun im => { im with has_alpha := true }) := by
  have hb : ∀ i, i ≠ 12 → byteAt (pre ++ 3 :: post) i = byteAt (pre ++ 4 :: post) i := by
    intro i hi
    unfold byteAt
    rcases Nat.lt_or_ge i 12 with h | h
    · rw [List.getD_append _ _ _ _ (by omega), List.getD_append _ _ _ _ (by omega)]
    · have h2 : pre.length ≤ i := by omega
      rw [List.getD_append_right _ _ _ _ h2, List.getD_append_right _ _ _ _ h2]
      have h3 : i - pre.length = (i - pre.length - 1) + 1 := by omega
      rw [h3, List.getD_cons_succ, List.getD_cons_succ]
  have h12a : byteAt (pre ++ 3 :: post) 12 = 3 := by
    unfold byteAt
    rw [List.getD_append_right _ _ _ _ (by omega)]
    simp [hpre]
  have h12b : byteAt (pre ++ 4 :: post) 12 = 4 := by
    unfold byteAt
    rw [List.getD_append_right _ _ _ _ (by omega)]
    simp [hpre]
  have hlen : (pre ++ 3 :: post).length = (pre ++ 4 :: post).length := by simp
  have hRB4 : readBE32 (pre ++ 4 :: post) 4 = readBE32 (pre ++ 3 :: post) 4 := by
    unfold readBE32
    rw [← hb 4 (by omega), ← hb 5 (by omega), ← hb 6 (by omega), ← hb 7 (by omega)]
  have hRB8 : readBE32 (pre ++ 4 :: post) 8 = readBE32 (pre ++ 3 :: post) 8 := by
    unfold readBE32
    rw [← hb 8 (by omega), ← hb 9 (by omega), ← hb 10 (by omega), ← hb 11 (by omega)]
  have hdropA : (pre ++ 3 :: post).drop QOI_HEADER_SIZE = post.drop 1 := by
    have h1 : (pre ++ 3 :: post).drop QOI_HEADER_SIZE =
        ((pre ++ 3 :: post).drop 12).drop 2 := by
      rw [List.drop_drop]
      rfl
    rw [h1, ← hpre, List.drop_left' rfl]
    rfl
  have hdropB : (pre ++ 4 :: post).drop QOI_HEADER_SIZE = post.drop 1 := by
    have h1 : (pre ++ 4 :: post).drop QOI_HEADER_SIZE =
        ((pre ++ 4 :: post).drop 12).drop 2 := by
      rw [List.drop_drop]
      rfl
    rw [h1, ← hpre, List.drop_left' rfl]
    rfl
  have hph : parse_header (pre ++ 4 :: post) =
      match parse_header (pre ++ 3 :: post) with
      | Except.error e => Except.error e
      | Except.ok hd => Except.ok ⟨true, hd.colorspace, hd.width, hd.height⟩ := by
    unfold parse_header
    rw [← hlen, ← hb 0 (by omega), ← hb 1 (by omega), ← hb 2 (by omega),
      ← hb 3 (by omega), ← hb 13 (by omega), hRB4, hRB8, h12a, h12b]
    by_cases h14 : (pre ++ 3 :: post).length < QOI_HEADER_SIZE
    · rw [if_pos h14, if_pos h14]
    · rw [if_neg h14, if_neg h14]
      by_cases hm : ¬(byteAt (pre ++ 3 :: post) 0 = 113 ∧
          byteAt (pre ++ 3 :: post) 1 = 111 ∧
          byteAt (pre ++ 3 :: post) 2 = 105 ∧ byteAt (pre ++ 3 :: post) 3 = 102)
      · rw [if_pos hm, if_pos hm]
      · rw [if_neg hm, if_neg hm,
          if_neg (by decide : ¬¬((4 : Nat) = QOI_CHANNELS_RGB ∨ (4 : Nat) = QOI_CHANNELS_RGBA)),
          if_neg (by decide : ¬¬((3 : Nat) = QOI_CHANNELS_RGB ∨ (3 : Nat) = QOI_CHANNELS_RGBA))]
        by_cases hcs : ¬(byteAt (pre ++ 3 :: post) 13 = 0 ∨ byteAt (pre ++ 3 :: post) 13 = 1)
        · rw [if_pos hcs, if_pos hcs]
        · rw [if_neg hcs, if_neg hcs]
          by_cases hw : readBE32 (pre ++ 3 :: post) 4 = 0 ∨
              readBE32 (pre ++ 3 :: post) 4 > GIMP_MAX_IMAGE_SIZE
          · rw [if_pos hw, if_pos hw]
          · rw [if_neg hw, if_neg hw]
            by_cases hh : readBE32 (pre ++ 3 :: post) 8 = 0 ∨
                readBE32 (pre ++ 3 :: post) 8 > GIMP_MAX_IMAGE_SIZE
            · rw [if_pos hh, if_pos hh]
            · rw [if_neg hh, if_neg hh]
              rfl
  unfold load_image
  rw [hph, hdropA, hdropB]
  cases he : parse_header (pre ++ 3 :: post) with
  | error e => rfl
  | ok hd =>
    dsimp only
    by_cases h0 : hd.width * hd.height % UINT32_MOD = 0
    · rw [if_pos h0, if_pos h0]
      rfl
    · rw [if_neg h0, if_neg h0]
      cases hdl : decodeLoop (hd.width * hd.height % UINT32_MOD)
          (hd.width * hd.height % UINT32_MOD)
          (post.drop 1) 0 qoiInitPixel (List.replicate 64 qoiZeroPixel) with
      | error e => rfl
      | ok r =>
        dsimp only
        by_cases h1 : r.2.length < QOI_END_MARKER_SIZE
        · rw [if_pos h1, if_pos h1]
          rfl
        · rw [if_neg h1, if_neg h1]
          by_cases h2 : endMarkerAt r.2 = false
          · rw [if_pos h2, if_pos h2]
            rfl
          · rw [if_neg h2, if_neg h2]
            by_cases h3 : r.2.length ≠ QOI_END_MARKER_SIZE
            · rw [if_pos h3, if_pos h3]
              rfl
            · rw [if_neg h3, if_neg h3]
              rfl

/-- Witness for C9: a concrete valid 1×1 stream in both channel variants. -/
theorem c9_channels_only_flag_witness :
    load_image ([113, 111, 105, 102, 0, 0, 0, 1, 0, 0, 0, 1] ++ 4 ::
        [0, 0xC0, 0, 0, 0, 0, 0, 0, 0, 1]) =
      (load_image ([113, 111, 105, 102, 0, 0, 0, 1, 0, 0, 0, 1] ++ 3 ::
          [0, 0xC0, 0, 0, 0, 0, 0, 0, 0, 1])).map
        (fun im => { im with has_alpha := true }) :=
  c9_channels_only_flag [113, 111, 105, 102, 0, 0, 0, 1, 0, 0, 0, 1]
    [0, 0xC0, 0, 0, 0, 0, 0, 0, 0, 1] (by decide)

/-! ## Claim C1: round trip.  Bit-level bridging lemmas for the tags the
encoder emits, proved by bounded case evaluation. -/

theorem tag_bits_index : ∀ h : Nat, h < 64 →
    (QOI_OP_INDEX ||| h) % 256 = QOI_OP_INDEX ||| h ∧
    QOI_OP_INDEX ||| h ≠ QOI_OP_RGB ∧
    QOI_OP_INDEX ||| h ≠ QOI_OP_RGBA ∧
    (QOI_OP_INDEX ||| h) &&& QOI_SMALL_TAG_MASK = QOI_OP_INDEX ∧
    (QOI_OP_INDEX ||| h) &&& 0x3F = h ∧
    QOI_OP_INDEX ||| h = h := by decide

theorem tag_bits_diff : ∀ a : Nat, a < 4 → ∀ b : Nat, b < 4 → ∀ c : Nat, c < 4 →
    (QOI_OP_DIFF ||| (a <<< 4) ||| (b <<< 2) ||| c) % 256 =
      QOI_OP_DIFF ||| (a <<< 4) ||| (b <<< 2) ||| c ∧
    (QOI_OP_DIFF ||| (a <<< 4) ||| (b <<< 2) ||| c) &&& QOI_SMALL_TAG_MASK =
      QOI_OP_DIFF ∧
    ((QOI_OP_DIFF ||| (a <<< 4) ||| (b <<< 2) ||| c) >>> 4) &&& 0x03 = a ∧
    ((QOI_OP_DIFF ||| (a <<< 4) ||| (b <<< 2) ||| c) >>> 2) &&& 0x03 = b ∧
    ((QOI_OP_DIFF ||| (a <<< 4) ||| (b <<< 2) ||| c) >>> 0) &&& 0x03 = c ∧
    (QOI_OP_DIFF ||| (a <<< 4) ||| (b <<< 2) ||| c) ≠ 0 := by decide

theorem tag_bits_luma1 : ∀ g : Nat, g < 64 →
    (QOI_OP_LUMA ||| g) % 256 = QOI_OP_LUMA ||| g ∧
    (QOI_OP_LUMA ||| g) &&& QOI_SMALL_TAG_MASK = QOI_OP_LUMA ∧
    (QOI_OP_LUMA ||| g) &&& 0x3F = g ∧
    (QOI_OP_LUMA ||| g) ≠ 0 := by decide

theorem tag_bits_luma2 : ∀ x : Nat, x < 16 → ∀ y : Nat, y < 16 →
    ((x <<< 4) ||| y) % 256 = (x <<< 4) ||| y ∧
    (((x <<< 4) ||| y) >>> 4) &&& 0x0F = x ∧
    (((x <<< 4) ||| y) >>> 0) &&& 0x0F = y := by decide

theorem tag_bits_run : ∀ r : Nat, r < 62 →
    (QOI_OP_RUN ||| r) % 256 = QOI_OP_RUN ||| r ∧
    QOI_OP_RUN ||| r ≠ QOI_OP_RGB ∧
    QOI_OP_RUN ||| r ≠ QOI_OP_RGBA ∧
    (QOI_OP_RUN ||| r) &&& QOI_SMALL_TAG_MASK = QOI_OP_RUN ∧
    (QOI_OP_RUN ||| r) &&& 0x3F = r := by decide

/-- Structure eta for pixels. -/
theorem QoiPixel.eta (p : QoiPixel) :
    (⟨p.red, p.green, p.blue, p.alpha⟩ : QoiPixel) = p := rfl

/-- `byteAdd` undoes the exact integer difference the encoder computed. -/
theorem byteAdd_cancel (c c' : Nat) (h : c' < 256) :
    byteAdd c ((c' : Int) - (c : Int)) = c' := by
  unfold byteAdd
  have h1 : (c : Int) + ((c' : Int) - (c : Int)) = (c' : Int) := by ring
  rw [h1, Int.emod_eq_of_lt (by omega) (by omega)]
  omega

theorem headD_append_of_ne_nil {α : Type} (l m : List α) (d : α) (h : l ≠ []) :
    (l ++ m).headD d = l.headD d := by
  cases l with
  | nil => exact absurd rfl h
  | cons x xs => rfl

theorem drop_eq_getD_cons (pixels : List QoiPixel) (i : Nat) (h : i < pixels.length) :
    pixels.drop i = pixels.getD i qoiZeroPixel :: pixels.drop (i + 1) := by
  rw [List.getD_eq_getElem pixels qoiZeroPixel h]
  exact List.drop_eq_getElem_cons h

theorem drop_eq_replicate_append (pixels : List QoiPixel) (prev : QoiPixel) :
    ∀ (d i : Nat), i + d ≤ pixels.length →
      (∀ j, j < d → pixels.getD (i + j) qoiZeroPixel = prev) →
      pixels.drop i = List.replicate d prev ++ pixels.drop (i + d) := by
  intro d
  induction d with
  | zero => intro i _ _; simp
  | succ d ih =>
    intro i hle hall
    have h0 : pixels.getD i qoiZeroPixel = prev := by
      have := hall 0 (by omega)
      simpa using this
    rw [drop_eq_getD_cons pixels i (by omega), h0]
    have ih1 := ih (i + 1) (by omega) (fun j hj => by
      have := hall (j + 1) (by omega)
      rw [← this]
      congr 1
      omega)
    rw [ih1]
    have hrw : i + 1 + d = i + (d + 1) := by omega
    rw [hrw]
    rfl

theorem drop_eq_nil_of_ge (pixels : List QoiPixel) (i : Nat)
    (h : pixels.length ≤ i) : pixels.drop i = [] := by
  simp [List.drop_eq_nil_iff]
  omega

theorem endMarkerAt_cons_ne (a : Nat) (tail : List Nat) (h : a % 256 ≠ 0) :
    endMarkerAt (a :: tail) = false := by
  unfold endMarkerAt QOI_END_MARKER QOI_END_MARKER_SIZE
  apply beq_eq_false_iff_ne.mpr
  intro hc
  rw [List.take_succ_cons, List.map_cons] at hc
  exact h (List.cons.injEq _ _ _ _ ▸ hc).1

theorem endMarkerAt_cons_cons_ne (a b : Nat) (tail : List Nat) (h : b % 256 ≠ 0) :
    endMarkerAt (a :: b :: tail) = false := by
  unfold endMarkerAt QOI_END_MARKER QOI_END_MARKER_SIZE
  apply beq_eq_false_iff_ne.mpr
  intro hc
  rw [List.take_succ_cons, List.take_succ_cons, List.map_cons, List.map_cons] at hc
  have := (List.cons.injEq _ _ _ _ ▸ hc).2
  exact h (List.cons.injEq _ _ _ _ ▸ this).1

theorem prependPixels_prependPixels (ps qs : List QoiPixel)
    (x : Except QoiError (List QoiPixel × List Nat)) :
    prependPixels ps (prependPixels qs x) = prependPixels (ps ++ qs) x := by
  cases x with
  | error e => rfl
  | ok r => simp [prependPixels]

theorem headD_mem {α : Type} (l : List α) (d : α) (h : l ≠ []) : l.headD d ∈ l := by
  cases l with
  | nil => exact absurd rfl h
  | cons x xs => simp

theorem encodeRunLoop_ne_nil (pixels : List QoiPixel) (max : Nat) (prev : QoiPixel) :
    ∀ (fuel pixelIndex run : Nat), max - pixelIndex ≤ fuel → pixelIndex < max →
      (encodeRunLoop pixels max prev fuel pixelIndex run).2 ≠ [] := by
  intro fuel
  induction fuel with
  | zero => intro pi r h1 h2; omega
  | succ fuel ih =>
    intro pi r hf hlt
    simp only [encodeRunLoop]
    generalize hc : (decide (pi + 1 < max) &&
      qoi_pixel_equal prev (pixels.getD (pi + 1) qoiZeroPixel)) = c
    cases c with
    | false =>
      rw [if_pos (Or.inr rfl), if_neg (by decide : ¬ false = true)]
      simp
    | true =>
      by_cases h62 : r + 1 = QOI_MAX_RUN_LENGTH
      · rw [if_pos (Or.inl h62), if_pos rfl]
        simp
      · rw [if_neg (by simp [h62])]
        have hlt1 : pi + 1 < max := by
          have hc' := hc
          simp at hc'
          exact hc'.1
        exact ih (pi + 1) (r + 1) (by omega) hlt1

/-- Decoding the run chunks `runLengths m` reproduces `m` copies of the
current pixel and leaves the register and cache untouched. -/
theorem decode_runChunks (max : Nat) (cur : QoiPixel) (cache : List QoiPixel) :
    ∀ (m : Nat), 1 ≤ m → ∀ (fuelD pixelIndexD : Nat) (rest : List Nat),
      pixelIndexD + m ≤ max → max - pixelIndexD ≤ fuelD → 7 ≤ rest.length →
      ∃ fuelD2, max - (pixelIndexD + m) ≤ fuelD2 ∧
        decodeLoop max fuelD
            ((runLengths m).map (fun k => QOI_OP_RUN ||| (k - 1)) ++ rest)
            pixelIndexD cur cache =
          prependPixels (List.replicate m cur)
            (decodeLoop max fuelD2 rest (pixelIndexD + m) cur cache) := by
  intro m
  induction m using Nat.strong_induction_on with
  | _ m ih =>
    intro hm fuelD pixelIndexD rest hbound hfuel hrest
    obtain ⟨f, rfl⟩ : ∃ f, fuelD = f + 1 := ⟨fuelD - 1, by omega⟩
    by_cases h62 : m ≤ 62
    · rw [runLengths_of_le h62]
      have hbits := tag_bits_run (m - 1) (by omega)
      have hstream : ([m].map (fun k => QOI_OP_RUN ||| (k - 1))) ++ rest =
          (QOI_OP_RUN ||| (m - 1)) :: rest := by
        simp
      rw [hstream]
      have hba : byteAt ((QOI_OP_RUN ||| (m - 1)) :: rest) 0 = QOI_OP_RUN ||| (m - 1) := by
        rw [byteAt_cons_zero, hbits.1]
      have hrw := decodeLoop_run max f ((QOI_OP_RUN ||| (m - 1)) :: rest) pixelIndexD
        cur cache (by omega)
        (by simp only [List.length_cons]; unfold QOI_END_MARKER_SIZE; omega)
        (by rw [hba]; exact hbits.2.2.2.1)
        (by rw [hba]; exact hbits.2.1)
        (by rw [hba]; exact hbits.2.2.1)
      rw [hba, hbits.2.2.2.2] at hrw
      have hm1 : m - 1 + 1 = m := by omega
      rw [hm1] at hrw
      exact ⟨f, by omega, hrw⟩
    · rw [runLengths_of_gt (by omega)]
      have hbits := tag_bits_run 61 (by decide)
      have hstream : ((62 :: runLengths (m - 62)).map (fun k => QOI_OP_RUN ||| (k - 1))) ++ rest =
          (QOI_OP_RUN ||| 61) ::
            ((runLengths (m - 62)).map (fun k => QOI_OP_RUN ||| (k - 1)) ++ rest) := by
        simp
      rw [hstream]
      have hba : byteAt ((QOI_OP_RUN ||| 61) ::
          ((runLengths (m - 62)).map (fun k => QOI_OP_RUN ||| (k - 1)) ++ rest)) 0 =
          QOI_OP_RUN ||| 61 := by
        rw [byteAt_cons_zero, hbits.1]
      have hrw := decodeLoop_run max f ((QOI_OP_RUN ||| 61) ::
          ((runLengths (m - 62)).map (fun k => QOI_OP_RUN ||| (k - 1)) ++ rest))
        pixelIndexD cur cache (by omega)
        (by
          simp only [List.length_cons, List.length_append]
          unfold QOI_END_MARKER_SIZE
          omega)
        (by rw [hba]; exact hbits.2.2.2.1)
        (by rw [hba]; exact hbits.2.1)
        (by rw [hba]; exact hbits.2.2.1)
      rw [hba, hbits.2.2.2.2] at hrw
      obtain ⟨fuelD2, hf2, heq⟩ := ih (m - 62) (by omega) (by omega) f (pixelIndexD + 62)
        rest (by omega) (by omega) hrest
      have hdrop : ((QOI_OP_RUN ||| 61) ::
          ((runLengths (m - 62)).map (fun k => QOI_OP_RUN ||| (k - 1)) ++ rest)).drop 1 =
          (runLengths (m - 62)).map (fun k => QOI_OP_RUN ||| (k - 1)) ++ rest := rfl
      rw [hdrop] at hrw
      have h611 : (61 : Nat) + 1 = 62 := by omega
      rw [h611] at hrw
      rw [heq] at hrw
      rw [prependPixels_prependPixels] at hrw
      refine ⟨fuelD2, by omega, ?_⟩
      rw [hrw]
      have hrep : List.replicate 62 cur ++ List.replicate (m - 62) cur =
          List.replicate m cur := by
        rw [← List.replicate_add]
        congr 1
        omega
      rw [hrep]
      have hpi : pixelIndexD + 62 + (m - 62) = pixelIndexD + m := by omega
      rw [hpi]

/-- After an index chunk whose slot 0 holds the current register value, the
next chunk the encoder emits cannot start with a zero byte (a zero tag would
be an index-0 chunk referencing the register itself, which the run branch
would have captured instead). -/
theorem encodeLoop_headD_ne_zero (pixels : List QoiPixel) (max : Nat) (ha : Bool)
    (fuel pixelIndex : Nat) (prev : QoiPixel) (cache : List QoiPixel)
    (hfuel : max - pixelIndex ≤ fuel)
    (hc0 : cache.getD 0 qoiZeroPixel = prev) :
    ((encodeLoop pixels max ha fuel pixelIndex prev cache).headD 1) % 256 ≠ 0 := by
  by_cases h : pixelIndex < max
  · obtain ⟨f, rfl⟩ : ∃ f, fuel = f + 1 := ⟨fuel - 1, by omega⟩
    cases heq : qoi_pixel_equal prev (pixels.getD pixelIndex qoiZeroPixel) with
    | true =>
      rw [encodeLoop_run pixels max ha f pixelIndex prev cache h heq]
      have hne := encodeRunLoop_ne_nil pixels max prev (f + 1) pixelIndex 0 (by omega) h
      rw [headD_append_of_ne_nil _ _ _ hne]
      have hmem := headD_mem _ (1 : Nat) hne
      have hb := encodeRunLoop_bytes pixels max prev (f + 1) pixelIndex 0 (by omega) _ hmem
      omega
    | false =>
      cases hidx : qoi_pixel_equal (pixels.getD pixelIndex qoiZeroPixel)
          (cache.getD (qoi_pixel_hash (pixels.getD pixelIndex qoiZeroPixel)) qoiZeroPixel) with
      | true =>
        rw [encodeLoop_index pixels max ha f pixelIndex prev
          (pixels.getD pixelIndex qoiZeroPixel) cache h rfl heq hidx]
        have hh : qoi_pixel_hash (pixels.getD pixelIndex qoiZeroPixel) ≠ 0 := by
          intro h0
          rw [h0, hc0] at hidx
          have hcp := (qoi_pixel_equal_iff _ _).mp hidx
          rw [hcp] at heq
          have ht : qoi_pixel_equal prev prev = true := (qoi_pixel_equal_iff _ _).mpr rfl
          rw [ht] at heq
          exact Bool.noConfusion heq
        have hbits := tag_bits_index _ (qoi_pixel_hash_lt (pixels.getD pixelIndex qoiZeroPixel))
        have hhead : ((QOI_OP_INDEX ||| qoi_pixel_hash (pixels.getD pixelIndex qoiZeroPixel)) ::
            encodeLoop pixels max ha f (pixelIndex + 1)
              (pixels.getD pixelIndex qoiZeroPixel) cache).headD 1 =
            QOI_OP_INDEX ||| qoi_pixel_hash (pixels.getD pixelIndex qoiZeroPixel) := rfl
        rw [hhead, hbits.1, hbits.2.2.2.2.2]
        exact hh
      | false =>
        cases halpha : ((!ha) ||
            (pixels.getD pixelIndex qoiZeroPixel).alpha == prev.alpha) with
        | true =>
          by_cases hd : QOI_DIFF_LOWER_BOUND ≤
              ((pixels.getD pixelIndex qoiZeroPixel).red : Int) - (prev.red : Int) ∧
              ((pixels.getD pixelIndex qoiZeroPixel).red : Int) - (prev.red : Int) ≤
                QOI_DIFF_UPPER_BOUND ∧
              QOI_DIFF_LOWER_BOUND ≤
                ((pixels.getD pixelIndex qoiZeroPixel).green : Int) - (prev.green : Int) ∧
              ((pixels.getD pixelIndex qoiZeroPixel).green : Int) - (prev.green : Int) ≤
                QOI_DIFF_UPPER_BOUND ∧
              QOI_DIFF_LOWER_BOUND ≤
                ((pixels.getD pixelIndex qoiZeroPixel).blue : Int) - (prev.blue : Int) ∧
              ((pixels.getD pixelIndex qoiZeroPixel).blue : Int) - (prev.blue : Int) ≤
                QOI_DIFF_UPPER_BOUND
          · rw [encodeLoop_diff pixels max ha f pixelIndex prev
              (pixels.getD pixelIndex qoiZeroPixel) cache h rfl heq hidx halpha hd]
            have h1 : (((pixels.getD pixelIndex qoiZeroPixel).red : Int) -
                (prev.red : Int) - QOI_DIFF_LOWER_BOUND).toNat < 4 := by
              unfold QOI_DIFF_LOWER_BOUND QOI_DIFF_UPPER_BOUND at hd
              unfold QOI_DIFF_LOWER_BOUND
              omega
            have h2 : (((pixels.getD pixelIndex qoiZeroPixel).green : Int) -
                (prev.green : Int) - QOI_DIFF_LOWER_BOUND).toNat < 4 := by
              unfold QOI_DIFF_LOWER_BOUND QOI_DIFF_UPPER_BOUND at hd
              unfold QOI_DIFF_LOWER_BOUND
              omega
            have h3 : (((pixels.getD pixelIndex qoiZeroPixel).blue : Int) -
                (prev.blue : Int) - QOI_DIFF_LOWER_BOUND).toNat < 4 := by
              unfold QOI_DIFF_LOWER_BOUND QOI_DIFF_UPPER_BOUND at hd
              unfold QOI_DIFF_LOWER_BOUND
              omega
            have hbits := tag_bits_diff _ h1 _ h2 _ h3
            have hhead : ∀ (t : Nat) (l : List Nat), (t :: l).headD 1 = t := fun _ _ => rfl
            rw [hhead, hbits.1]
            exact hbits.2.2.2.2.2
          · by_cases hl : QOI_LUMA_GREEN_LOWER_BOUND ≤
                ((pixels.getD pixelIndex qoiZeroPixel).green : Int) - (prev.green : Int) ∧
                ((pixels.getD pixelIndex qoiZeroPixel).green : Int) - (prev.green : Int) ≤
                  QOI_LUMA_GREEN_UPPER_BOUND ∧
                QOI_LUMA_RED_BLUE_LOWER_BOUND ≤
                  (((pixels.getD pixelIndex qoiZeroPixel).red : Int) - (prev.red : Int)) -
                    (((pixels.getD pixelIndex qoiZeroPixel).green : Int) - (prev.green : Int)) ∧
                (((pixels.getD pixelIndex qoiZeroPixel).red : Int) - (prev.red : Int)) -
                    (((pixels.getD pixelIndex qoiZeroPixel).green : Int) - (prev.green : Int)) ≤
                  QOI_LUMA_RED_BLUE_UPPER_BOUND ∧
                QOI_LUMA_RED_BLUE_LOWER_BOUND ≤
                  (((pixels.getD pixelIndex qoiZeroPixel).blue : Int) - (prev.blue : Int)) -
                    (((pixels.getD pixelIndex qoiZeroPixel).green : Int) - (prev.green : Int)) ∧
                (((pixels.getD pixelIndex qoiZeroPixel).blue : Int) - (prev.blue : Int)) -
                    (((pixels.getD pixelIndex qoiZeroPixel).green : Int) - (prev.green : Int)) ≤
                  QOI_LUMA_RED_BLUE_UPPER_BOUND
            · rw [encodeLoop_luma pixels max ha f pixelIndex prev
                (pixels.getD pixelIndex qoiZeroPixel) cache h rfl heq hidx halpha hd hl]
              have hg : (((pixels.getD pixelIndex qoiZeroPixel).green : Int) -
                  (prev.green : Int) - QOI_LUMA_GREEN_LOWER_BOUND).toNat < 64 := by
                unfold QOI_LUMA_GREEN_LOWER_BOUND QOI_LUMA_GREEN_UPPER_BOUND at hl
                unfold QOI_LUMA_GREEN_LOWER_BOUND
                omega
              have hbits := tag_bits_luma1 _ hg
              have hhead : ∀ (t : Nat) (l : List Nat), (t :: l).headD 1 = t := fun _ _ => rfl
              rw [hhead, hbits.1]
              exact hbits.2.2.2
            · rw [encodeLoop_rgbLit pixels max ha f pixelIndex prev
                (pixels.getD pixelIndex qoiZeroPixel) cache h rfl heq hidx halpha hd hl]
              have hhead : ∀ (t : Nat) (l : List Nat), (t :: l).headD 1 = t :=
                fun _ _ => rfl
              rw [hhead]
              decide
        | false =>
          rw [encodeLoop_rgbaLit pixels max ha f pixelIndex prev
            (pixels.getD pixelIndex qoiZeroPixel) cache h rfl heq hidx halpha]
          have hhead : ∀ (t : Nat) (l : List Nat), (t :: l).headD 1 = t :=
            fun _ _ => rfl
          rw [hhead]
          decide
  · rw [encodeLoop_done pixels max ha fuel pixelIndex prev cache h]
    decide

/-- Every run the encoder enters has a maximal extent. -/
theorem exists_maximal_run (pixels : List QoiPixel) (max : Nat) (prev : QoiPixel) :
    ∀ (k pixelIndex : Nat), pixelIndex < max → max - pixelIndex ≤ k →
      qoi_pixel_equal prev (pixels.getD pixelIndex qoiZeroPixel) = true →
      ∃ n, 1 ≤ n ∧ pixelIndex + n ≤ max ∧
        (∀ j, j < n → pixels.getD (pixelIndex + j) qoiZeroPixel = prev) ∧
        (pixelIndex + n = max ∨
          qoi_pixel_equal prev (pixels.getD (pixelIndex + n) qoiZeroPixel) = false) := by
  intro k
  induction k with
  | zero => intro pixelIndex h hk _; omega
  | succ k ih =>
    intro pixelIndex h hk heq
    have h0 : pixels.getD pixelIndex qoiZeroPixel = prev :=
      ((qoi_pixel_equal_iff _ _).mp heq).symm
    by_cases hm : pixelIndex + 1 = max
    · exact ⟨1, by omega, by omega,
        fun j hj => by
          have hj0 : j = 0 := by omega
          subst hj0
          simpa using h0,
        Or.inl hm⟩
    · cases hnext : qoi_pixel_equal prev (pixels.getD (pixelIndex + 1) qoiZeroPixel) with
      | false =>
        exact ⟨1, by omega, by omega,
          fun j hj => by
            have hj0 : j = 0 := by omega
            subst hj0
            simpa using h0,
          Or.inr hnext⟩
      | true =>
        obtain ⟨n, hn1, hn2, hn3, hn4⟩ := ih (pixelIndex + 1) (by omega) (by omega) hnext
        refine ⟨n + 1, by omega, by omega, ?_, ?_⟩
        · intro j hj
          cases j with
          | zero => simpa using h0
          | succ j =>
            have := hn3 j (by omega)
            rw [← this]
            congr 1
            omega
        · have hsh : pixelIndex + (n + 1) = pixelIndex + 1 + n := by omega
          rw [hsh]
          exact hn4

/-- The decode loop inverts the encode loop: starting from matching states
(same previous-pixel register, same cache, same pixel position), decoding
the bytes the encoder emits — followed by the end marker — reproduces
exactly the remaining pixels and stops right at the marker. -/
theorem decode_encodeLoop (pixels : List QoiPixel) (max : Nat) (ha : Bool)
    (hlen : pixels.length = max)
    (hwf : ∀ p ∈ pixels, p.wf)
    (hal : ha = false → ∀ p ∈ pixels, p.alpha = 255) :
    ∀ (fuelE pixelIndex : Nat) (prev : QoiPixel) (cache : List QoiPixel)
      (fuelD : Nat),
      max - pixelIndex ≤ fuelE → max - pixelIndex ≤ fuelD →
      (ha = false → prev.alpha = 255) →
      decodeLoop max fuelD
          (encodeLoop pixels max ha fuelE pixelIndex prev cache ++ QOI_END_MARKER)
          pixelIndex prev cache
        = Except.ok (pixels.drop pixelIndex, QOI_END_MARKER) := by
  intro fuelE
  induction fuelE with
  | zero =>
    intro pixelIndex prev cache fuelD hfe _ _
    have hge : ¬ pixelIndex < max := by omega
    have henc : encodeLoop pixels max ha 0 pixelIndex prev cache = [] := rfl
    rw [henc, List.nil_append,
      decodeLoop_done max fuelD QOI_END_MARKER pixelIndex prev cache hge,
      drop_eq_nil_of_ge pixels pixelIndex (by omega)]
  | succ fuelE ih =>
    intro pixelIndex prev cache fuelD hfe hfd hinv
    by_cases h : pixelIndex < max
    · have hlt' : pixelIndex < pixels.length := by omega
      have hmem : pixels.getD pixelIndex qoiZeroPixel ∈ pixels := by
        rw [List.getD_eq_getElem pixels qoiZeroPixel hlt']
        exact List.getElem_mem hlt'
      have hwfc := hwf _ hmem
      have hdropc := drop_eq_getD_cons pixels pixelIndex hlt'
      cases heq : qoi_pixel_equal prev (pixels.getD pixelIndex qoiZeroPixel) with
      | true =>
        obtain ⟨n, hn1, hn2, hn3, hn4⟩ := exists_maximal_run pixels max prev
          (max - pixelIndex) pixelIndex h (le_refl _) heq
        have hspec := encodeRunLoop_spec pixels max prev (fuelE + 1) pixelIndex 0 n
          hn1 hn2 hn3 hn4 (by omega) (by omega)
        rw [encodeLoop_run pixels max ha fuelE pixelIndex prev cache h heq, hspec]
        dsimp only
        rw [List.append_assoc]
        have hzn : (0 : Nat) + n = n := by omega
        rw [hzn]
        obtain ⟨fuelD2, hf2, hdec⟩ := decode_runChunks max prev cache n hn1 fuelD
          pixelIndex
          (encodeLoop pixels max ha fuelE (pixelIndex + n) prev cache ++ QOI_END_MARKER)
          hn2 (by omega)
          (by
            simp only [List.length_append, QOI_END_MARKER, List.length_cons,
              List.length_nil]
            omega)
        rw [hdec, ih (pixelIndex + n) prev cache fuelD2 (by omega) hf2 hinv,
          prependPixels_ok]
        have hseg := drop_eq_replicate_append pixels prev n pixelIndex (by omega) hn3
        rw [hseg]
      | false =>
        have hAA : ((!ha) || (pixels.getD pixelIndex qoiZeroPixel).alpha ==
            prev.alpha) = true →
            (pixels.getD pixelIndex qoiZeroPixel).alpha = prev.alpha := by
          intro hb
          cases ha with
          | false => rw [hal rfl _ hmem, hinv rfl]
          | true =>
            simp only [Bool.not_true, Bool.false_or, beq_iff_eq] at hb
            exact hb
        obtain ⟨fD, rfl⟩ : ∃ fD, fuelD = fD + 1 := ⟨fuelD - 1, by omega⟩
        cases hidx : qoi_pixel_equal (pixels.getD pixelIndex qoiZeroPixel)
            (cache.getD (qoi_pixel_hash (pixels.getD pixelIndex qoiZeroPixel))
              qoiZeroPixel) with
        | true =>
          rw [encodeLoop_index pixels max ha fuelE pixelIndex prev
            (pixels.getD pixelIndex qoiZeroPixel) cache h rfl heq hidx,
            List.cons_append]
          have hbits := tag_bits_index _
            (qoi_pixel_hash_lt (pixels.getD pixelIndex qoiZeroPixel))
          have hcachehash : cache.getD
              (qoi_pixel_hash (pixels.getD pixelIndex qoiZeroPixel)) qoiZeroPixel =
              pixels.getD pixelIndex qoiZeroPixel :=
            ((qoi_pixel_equal_iff _ _).mp hidx).symm
          have hba : byteAt ((QOI_OP_INDEX |||
              qoi_pixel_hash (pixels.getD pixelIndex qoiZeroPixel)) ::
              (encodeLoop pixels max ha fuelE (pixelIndex + 1)
                (pixels.getD pixelIndex qoiZeroPixel) cache ++ QOI_END_MARKER)) 0 =
              QOI_OP_INDEX ||| qoi_pixel_hash (pixels.getD pixelIndex qoiZeroPixel) := by
            rw [byteAt_cons_zero, hbits.1]
          have hm : endMarkerAt ((QOI_OP_INDEX |||
              qoi_pixel_hash (pixels.getD pixelIndex qoiZeroPixel)) ::
              (encodeLoop pixels max ha fuelE (pixelIndex + 1)
                (pixels.getD pixelIndex qoiZeroPixel) cache ++ QOI_END_MARKER)) = false := by
            by_cases hh : qoi_pixel_hash (pixels.getD pixelIndex qoiZeroPixel) = 0
            · cases hcont : encodeLoop pixels max ha fuelE (pixelIndex + 1)
                  (pixels.getD pixelIndex qoiZeroPixel) cache with
              | nil =>
                rw [hh]
                decide
              | cons b t =>
                have hb0 := encodeLoop_headD_ne_zero pixels max ha fuelE
                  (pixelIndex + 1) (pixels.getD pixelIndex qoiZeroPixel) cache
                  (by omega) (by rw [← hh]; exact hcachehash)
                rw [hcont] at hb0
                have hb0' : b % 256 ≠ 0 := hb0
                rw [List.cons_append]
                exact endMarkerAt_cons_cons_ne _ _ _ hb0'
            · apply endMarkerAt_cons_ne
              rw [hbits.1, hbits.2.2.2.2.2]
              exact hh
          rw [decodeLoop_index max fD _ pixelIndex prev cache h
            (by
              simp only [List.length_cons, List.length_append, QOI_END_MARKER,
                QOI_END_MARKER_SIZE, List.length_nil]
              omega)
            (by rw [hba]; exact hbits.2.2.2.1) hm]
          rw [hba, hbits.2.2.2.2.1, hcachehash]
          have hdrop1 : ((QOI_OP_INDEX |||
              qoi_pixel_hash (pixels.getD pixelIndex qoiZeroPixel)) ::
              (encodeLoop pixels max ha fuelE (pixelIndex + 1)
                (pixels.getD pixelIndex qoiZeroPixel) cache ++ QOI_END_MARKER)).drop 1 =
              encodeLoop pixels max ha fuelE (pixelIndex + 1)
                (pixels.getD pixelIndex qoiZeroPixel) cache ++ QOI_END_MARKER := rfl
          rw [hdrop1, ih (pixelIndex + 1) (pixels.getD pixelIndex qoiZeroPixel) cache
            fD (by omega) (by omega) (fun hf => hal hf _ hmem),
            prependPixels_ok, hdropc]
          rfl
        | false =>
          cases halpha : ((!ha) ||
              (pixels.getD pixelIndex qoiZeroPixel).alpha == prev.alpha) with
          | true =>
            have hAAv := hAA halpha
            by_cases hd : QOI_DIFF_LOWER_BOUND ≤
                ((pixels.getD pixelIndex qoiZeroPixel).red : Int) - (prev.red : Int) ∧
                ((pixels.getD pixelIndex qoiZeroPixel).red : Int) - (prev.red : Int) ≤
                  QOI_DIFF_UPPER_BOUND ∧
                QOI_DIFF_LOWER_BOUND ≤
                  ((pixels.getD pixelIndex qoiZeroPixel).green : Int) - (prev.green : Int) ∧
                ((pixels.getD pixelIndex qoiZeroPixel).green : Int) - (prev.green : Int) ≤
                  QOI_DIFF_UPPER_BOUND ∧
                QOI_DIFF_LOWER_BOUND ≤
                  ((pixels.getD pixelIndex qoiZeroPixel).blue : Int) - (prev.blue : Int) ∧
                ((pixels.getD pixelIndex qoiZeroPixel).blue : Int) - (prev.blue : Int) ≤
                  QOI_DIFF_UPPER_BOUND
            · rw [encodeLoop_diff pixels max ha fuelE pixelIndex prev
                (pixels.getD pixelIndex qoiZeroPixel) cache h rfl heq hidx halpha hd,
                List.cons_append]
              have h1 : (((pixels.getD pixelIndex qoiZeroPixel).red : Int) -
                  (prev.red : Int) - QOI_DIFF_LOWER_BOUND).toNat < 4 := by
                unfold QOI_DIFF_LOWER_BOUND QOI_DIFF_UPPER_BOUND at hd
                unfold QOI_DIFF_LOWER_BOUND
                omega
              have h2 : (((pixels.getD pixelIndex qoiZeroPixel).green : Int) -
                  (prev.green : Int) - QOI_DIFF_LOWER_BOUND).toNat < 4 := by
                unfold QOI_DIFF_LOWER_BOUND QOI_DIFF_UPPER_BOUND at hd
                unfold QOI_DIFF_LOWER_BOUND
                omega
              have h3 : (((pixels.getD pixelIndex qoiZeroPixel).blue : Int) -
                  (prev.blue : Int) - QOI_DIFF_LOWER_BOUND).toNat < 4 := by
                unfold QOI_DIFF_LOWER_BOUND QOI_DIFF_UPPER_BOUND at hd
                unfold QOI_DIFF_LOWER_BOUND
                omega
              have hbits := tag_bits_diff _ h1 _ h2 _ h3
              have hba : byteAt ((QOI_OP_DIFF |||
                  ((((pixels.getD pixelIndex qoiZeroPixel).red : Int) -
                    (prev.red : Int) - QOI_DIFF_LOWER_BOUND).toNat <<< 4) |||
                  ((((pixels.getD pixelIndex qoiZeroPixel).green : Int) -
                    (prev.green : Int) - QOI_DIFF_LOWER_BOUND).toNat <<< 2) |||
                  (((pixels.getD pixelIndex qoiZeroPixel).blue : Int) -
                    (prev.blue : Int) - QOI_DIFF_LOWER_BOUND).toNat) ::
                  (encodeLoop pixels max ha fuelE (pixelIndex + 1)
                    (pixels.getD pixelIndex qoiZeroPixel)
                    (cache.set (qoi_pixel_hash (pixels.getD pixelIndex qoiZeroPixel))
                      (pixels.getD pixelIndex qoiZeroPixel)) ++ QOI_END_MARKER)) 0 =
                  QOI_OP_DIFF |||
                  ((((pixels.getD pixelIndex qoiZeroPixel).red : Int) -
                    (prev.red : Int) - QOI_DIFF_LOWER_BOUND).toNat <<< 4) |||
                  ((((pixels.getD pixelIndex qoiZeroPixel).green : Int) -
                    (prev.green : Int) - QOI_DIFF_LOWER_BOUND).toNat <<< 2) |||
                  (((pixels.getD pixelIndex qoiZeroPixel).blue : Int) -
                    (prev.blue : Int) - QOI_DIFF_LOWER_BOUND).toNat := by
                rw [byteAt_cons_zero, hbits.1]
              rw [decodeLoop_diff max fD _ pixelIndex prev cache h
                (by
                  simp only [List.length_cons, List.length_append, QOI_END_MARKER,
                    QOI_END_MARKER_SIZE, List.length_nil]
                  omega)
                (by rw [hba]; exact hbits.2.1)]
              rw [hba, hbits.2.2.1, hbits.2.2.2.1, hbits.2.2.2.2.1]
              have hdr : ((((pixels.getD pixelIndex qoiZeroPixel).red : Int) -
                  (prev.red : Int) - QOI_DIFF_LOWER_BOUND).toNat : Int) +
                  QOI_DIFF_LOWER_BOUND =
                  ((pixels.getD pixelIndex qoiZeroPixel).red : Int) - (prev.red : Int) := by
                unfold QOI_DIFF_LOWER_BOUND QOI_DIFF_UPPER_BOUND at hd
                unfold QOI_DIFF_LOWER_BOUND
                omega
              have hdg : ((((pixels.getD pixelIndex qoiZeroPixel).green : Int) -
                  (prev.green : Int) - QOI_DIFF_LOWER_BOUND).toNat : Int) +
                  QOI_DIFF_LOWER_BOUND =
                  ((pixels.getD pixelIndex qoiZeroPixel).green : Int) - (prev.green : Int) := by
                unfold QOI_DIFF_LOWER_BOUND QOI_DIFF_UPPER_BOUND at hd
                unfold QOI_DIFF_LOWER_BOUND
                omega
              have hdb : ((((pixels.getD pixelIndex qoiZeroPixel).blue : Int) -
                  (prev.blue : Int) - QOI_DIFF_LOWER_BOUND).toNat : Int) +
                  QOI_DIFF_LOWER_BOUND =
                  ((pixels.getD pixelIndex qoiZeroPixel).blue : Int) - (prev.blue : Int) := by
                unfold QOI_DIFF_LOWER_BOUND QOI_DIFF_UPPER_BOUND at hd
                unfold QOI_DIFF_LOWER_BOUND
                omega
              rw [hdr, hdg, hdb,
                byteAdd_cancel prev.red _ hwfc.1,
                byteAdd_cancel prev.green _ hwfc.2.1,
                byteAdd_cancel prev.blue _ hwfc.2.2.1,
                ← hAAv, QoiPixel.eta]
              have hdrop1 : ∀ (t : Nat) (l : List Nat), (t :: l).drop 1 = l :=
                fun _ _ => rfl
              rw [hdrop1, ih (pixelIndex + 1) (pixels.getD pixelIndex qoiZeroPixel)
                (cache.set (qoi_pixel_hash (pixels.getD pixelIndex qoiZeroPixel))
                  (pixels.getD pixelIndex qoiZeroPixel))
                fD (by omega) (by omega) (fun hf => hal hf _ hmem),
                prependPixels_ok, hdropc]
              rfl
            · by_cases hl : QOI_LUMA_GREEN_LOWER_BOUND ≤
                  ((pixels.getD pixelIndex qoiZeroPixel).green : Int) - (prev.green : Int) ∧
                  ((pixels.getD pixelIndex qoiZeroPixel).green : Int) - (prev.green : Int) ≤
                    QOI_LUMA_GREEN_UPPER_BOUND ∧
                  QOI_LUMA_RED_BLUE_LOWER_BOUND ≤
                    (((pixels.getD pixelIndex qoiZeroPixel).red : Int) - (prev.red : Int)) -
                      (((pixels.getD pixelIndex qoiZeroPixel).green : Int) - (prev.green : Int)) ∧
                  (((pixels.getD pixelIndex qoiZeroPixel).red : Int) - (prev.red : Int)) -
                      (((pixels.getD pixelIndex qoiZeroPixel).green : Int) - (prev.green : Int)) ≤
                    QOI_LUMA_RED_BLUE_UPPER_BOUND ∧
                  QOI_LUMA_RED_BLUE_LOWER_BOUND ≤
                    (((pixels.getD pixelIndex qoiZeroPixel).blue : Int) - (prev.blue : Int)) -
                      (((pixels.getD pixelIndex qoiZeroPixel).green : Int) - (prev.green : Int)) ∧
                  (((pixels.getD pixelIndex qoiZeroPixel).blue : Int) - (prev.blue : Int)) -
                      (((pixels.getD pixelIndex qoiZeroPixel).green : Int) - (prev.green : Int)) ≤
                    QOI_LUMA_RED_BLUE_UPPER_BOUND
              · rw [encodeLoop_luma pixels max ha fuelE pixelIndex prev
                  (pixels.getD pixelIndex qoiZeroPixel) cache h rfl heq hidx halpha hd hl]
                simp only [List.cons_append]
                have hg : (((pixels.getD pixelIndex qoiZeroPixel).green : Int) -
                    (prev.green : Int) - QOI_LUMA_GREEN_LOWER_BOUND).toNat < 64 := by
                  unfold QOI_LUMA_GREEN_LOWER_BOUND QOI_LUMA_GREEN_UPPER_BOUND at hl
                  unfold QOI_LUMA_GREEN_LOWER_BOUND
                  omega
                have hx : ((((pixels.getD pixelIndex qoiZeroPixel).red : Int) -
                    (prev.red : Int)) -
                    (((pixels.getD pixelIndex qoiZeroPixel).green : Int) -
                      (prev.green : Int)) -
                    QOI_LUMA_RED_BLUE_LOWER_BOUND).toNat < 16 := by
                  unfold QOI_LUMA_RED_BLUE_LOWER_BOUND QOI_LUMA_RED_BLUE_UPPER_BOUND at hl
                  unfold QOI_LUMA_RED_BLUE_LOWER_BOUND
                  omega
                have hy : ((((pixels.getD pixelIndex qoiZeroPixel).blue : Int) -
                    (prev.blue : Int)) -
                    (((pixels.getD pixelIndex qoiZeroPixel).green : Int) -
                      (prev.green : Int)) -
                    QOI_LUMA_RED_BLUE_LOWER_BOUND).toNat < 16 := by
                  unfold QOI_LUMA_RED_BLUE_LOWER_BOUND QOI_LUMA_RED_BLUE_UPPER_BOUND at hl
                  unfold QOI_LUMA_RED_BLUE_LOWER_BOUND
                  omega
                have hbits1 := tag_bits_luma1 _ hg
                have hbits2 := tag_bits_luma2 _ hx _ hy
                have hb1g : ∀ (x y : Nat) (l : List Nat),
                    byteAt (x :: y :: l) 1 = y % 256 := fun _ _ _ => rfl
                rw [decodeLoop_luma max fD _ pixelIndex prev cache h
                  (by
                    simp only [List.length_cons, List.length_append, QOI_END_MARKER,
                      QOI_END_MARKER_SIZE, List.length_nil]
                    omega)
                  (by rw [byteAt_cons_zero, hbits1.1]; exact hbits1.2.1)]
                rw [byteAt_cons_zero, hbits1.1, hb1g, hbits2.1, hbits1.2.2.1,
                  hbits2.2.1, hbits2.2.2]
                have hdgl : ((((pixels.getD pixelIndex qoiZeroPixel).green : Int) -
                    (prev.green : Int) - QOI_LUMA_GREEN_LOWER_BOUND).toNat : Int) +
                    QOI_LUMA_GREEN_LOWER_BOUND =
                    ((pixels.getD pixelIndex qoiZeroPixel).green : Int) -
                      (prev.green : Int) := by
                  unfold QOI_LUMA_GREEN_LOWER_BOUND QOI_LUMA_GREEN_UPPER_BOUND at hl
                  unfold QOI_LUMA_GREEN_LOWER_BOUND
                  omega
                rw [hdgl]
                have hdrl : (((((pixels.getD pixelIndex qoiZeroPixel).red : Int) -
                    (prev.red : Int)) -
                    (((pixels.getD pixelIndex qoiZeroPixel).green : Int) -
                      (prev.green : Int)) -
                    QOI_LUMA_RED_BLUE_LOWER_BOUND).toNat : Int) +
                    QOI_LUMA_RED_BLUE_LOWER_BOUND +
                    (((pixels.getD pixelIndex qoiZeroPixel).green : Int) -
                      (prev.green : Int)) =
                    ((pixels.getD pixelIndex qoiZeroPixel).red : Int) - (prev.red : Int) := by
                  unfold QOI_LUMA_RED_BLUE_LOWER_BOUND QOI_LUMA_RED_BLUE_UPPER_BOUND at hl
                  unfold QOI_LUMA_RED_BLUE_LOWER_BOUND
                  omega
                have hdbl : (((((pixels.getD pixelIndex qoiZeroPixel).blue : Int) -
                    (prev.blue : Int)) -
                    (((pixels.getD pixelIndex qoiZeroPixel).green : Int) -
                      (prev.green : Int)) -
                    QOI_LUMA_RED_BLUE_LOWER_BOUND).toNat : Int) +
                    QOI_LUMA_RED_BLUE_LOWER_BOUND +
                    (((pixels.getD pixelIndex qoiZeroPixel).green : Int) -
                      (prev.green : Int)) =
                    ((pixels.getD pixelIndex qoiZeroPixel).blue : Int) - (prev.blue : Int) := by
                  unfold QOI_LUMA_RED_BLUE_LOWER_BOUND QOI_LUMA_RED_BLUE_UPPER_BOUND at hl
                  unfold QOI_LUMA_RED_BLUE_LOWER_BOUND
                  omega
                rw [hdrl, hdbl,
                  byteAdd_cancel prev.red _ hwfc.1,
                  byteAdd_cancel prev.green _ hwfc.2.1,
                  byteAdd_cancel prev.blue _ hwfc.2.2.1,
                  ← hAAv, QoiPixel.eta]
                have hdrop2 : ∀ (t1 t2 : Nat) (l : List Nat),
                    (t1 :: t2 :: l).drop 2 = l := fun _ _ _ => rfl
                rw [hdrop2, ih (pixelIndex + 1) (pixels.getD pixelIndex qoiZeroPixel)
                  (cache.set (qoi_pixel_hash (pixels.getD pixelIndex qoiZeroPixel))
                    (pixels.getD pixelIndex qoiZeroPixel))
                  fD (by omega) (by omega) (fun hf => hal hf _ hmem),
                  prependPixels_ok, hdropc]
                rfl
              · rw [encodeLoop_rgbLit pixels max ha fuelE pixelIndex prev
                  (pixels.getD pixelIndex qoiZeroPixel) cache h rfl heq hidx halpha hd hl]
                simp only [List.cons_append]
                have hb1g : ∀ (x y : Nat) (l : List Nat),
                    byteAt (x :: y :: l) 1 = y % 256 := fun _ _ _ => rfl
                have hb2g : ∀ (x y z : Nat) (l : List Nat),
                    byteAt (x :: y :: z :: l) 2 = z % 256 := fun _ _ _ _ => rfl
                have hb3g : ∀ (x y z w : Nat) (l : List Nat),
                    byteAt (x :: y :: z :: w :: l) 3 = w % 256 := fun _ _ _ _ _ => rfl
                rw [decodeLoop_rgb max fD _ pixelIndex prev cache h
                  (by
                    simp only [List.length_cons, List.length_append, QOI_END_MARKER,
                      QOI_END_MARKER_SIZE, List.length_nil]
                    omega)
                  (by rw [byteAt_cons_zero]; decide)]
                rw [hb1g, hb2g, hb3g,
                  Nat.mod_eq_of_lt hwfc.1, Nat.mod_eq_of_lt hwfc.2.1,
                  Nat.mod_eq_of_lt hwfc.2.2.1, ← hAAv, QoiPixel.eta]
                have hdrop4 : ∀ (t1 t2 t3 t4 : Nat) (l : List Nat),
                    (t1 :: t2 :: t3 :: t4 :: l).drop 4 = l := fun _ _ _ _ _ => rfl
                rw [hdrop4, ih (pixelIndex + 1) (pixels.getD pixelIndex qoiZeroPixel)
                  (cache.set (qoi_pixel_hash (pixels.getD pixelIndex qoiZeroPixel))
                    (pixels.getD pixelIndex qoiZeroPixel))
                  fD (by omega) (by omega) (fun hf => hal hf _ hmem),
                  prependPixels_ok, hdropc]
                rfl
          | false =>
            rw [encodeLoop_rgbaLit pixels max ha fuelE pixelIndex prev
              (pixels.getD pixelIndex qoiZeroPixel) cache h rfl heq hidx halpha]
            simp only [List.cons_append]
            have hb1g : ∀ (x y : Nat) (l : List Nat),
                byteAt (x :: y :: l) 1 = y % 256 := fun _ _ _ => rfl
            have hb2g : ∀ (x y z : Nat) (l : List Nat),
                byteAt (x :: y :: z :: l) 2 = z % 256 := fun _ _ _ _ => rfl
            have hb3g : ∀ (x y z w : Nat) (l : List Nat),
                byteAt (x :: y :: z :: w :: l) 3 = w % 256 := fun _ _ _ _ _ => rfl
            have hb4g : ∀ (x y z w v : Nat) (l : List Nat),
                byteAt (x :: y :: z :: w :: v :: l) 4 = v % 256 := fun _ _ _ _ _ _ => rfl
            rw [decodeLoop_rgba max fD _ pixelIndex prev cache h
              (by
                simp only [List.length_cons, List.length_append, QOI_END_MARKER,
                  QOI_END_MARKER_SIZE, List.length_nil]
                omega)
              (by rw [byteAt_cons_zero]; decide)]
            rw [hb1g, hb2g, hb3g, hb4g,
              Nat.mod_eq_of_lt hwfc.1, Nat.mod_eq_of_lt hwfc.2.1,
              Nat.mod_eq_of_lt hwfc.2.2.1, Nat.mod_eq_of_lt hwfc.2.2.2,
              QoiPixel.eta]
            have hdrop5 : ∀ (t1 t2 t3 t4 t5 : Nat) (l : List Nat),
                (t1 :: t2 :: t3 :: t4 :: t5 :: l).drop 5 = l := fun _ _ _ _ _ _ => rfl
            rw [hdrop5, ih (pixelIndex + 1) (pixels.getD pixelIndex qoiZeroPixel)
              (cache.set (qoi_pixel_hash (pixels.getD pixelIndex qoiZeroPixel))
                (pixels.getD pixelIndex qoiZeroPixel))
              fD (by omega) (by omega) (fun hf => hal hf _ hmem),
              prependPixels_ok, hdropc]
            rfl
    · have henc : encodeLoop pixels max ha (fuelE + 1) pixelIndex prev cache = [] :=
        encodeLoop_done pixels max ha (fuelE + 1) pixelIndex prev cache h
      rw [henc, List.nil_append,
        decodeLoop_done max fuelD QOI_END_MARKER pixelIndex prev cache h,
        drop_eq_nil_of_ge pixels pixelIndex (by omega)]

/-- C1 counterexample input: a valid alpha-absent image whose second pixel
has alpha 7.  No RGBA chunk is emitted for alpha-absent images, so the
decoded alpha comes back as 255. -/
def c1_cex_image : QoiImage :=
  ⟨[⟨0, 0, 0, 255⟩, ⟨100, 100, 100, 7⟩], 1, 2, 0, false⟩

/-- C1 as stated is false: `c1_cex_image` is a valid image (positive
dimensions within the maximum, buffer of length width×height), yet decoding
its encoding does not return it — the alpha of the second pixel decodes as
255, not 7. -/
theorem c1_roundtrip_counterexample :
    c1_cex_image.valid ∧
    load_image (save_image c1_cex_image) ≠ Except.ok c1_cex_image := by
  constructor
  · decide
  · decide

/-- C1 (amended): for every valid image that (a) when the alpha-presence
flag is off carries the constant alpha 255 in its buffer, and (b) whose
exact allocation count `14 + width*height*5 + 8` stays within the positive
range of the 32-bit counters the encoder uses — so neither the `guint32`
products and size sum of lines 195, 316-320 and 339 nor the `gint32` byte
index of line 324 wraps — the encoded stream fits the allocated buffer
(`save_alloc_size`) and decoding the encoding returns the image exactly:
width, height, colorspace tag, alpha flag and all four channels of every
pixel.  (The alpha restriction on alpha-absent buffers is forced by the
counterexample: the encoder never emits RGBA chunks for them, so non-255
alpha values cannot survive the trip.  The size restriction is forced by
the `guint32` wraparound: past `2^32` both loops process only
`width*height mod 2^32` pixels and the allocation arithmetic wraps.) -/
theorem c1_roundtrip_amended (img : QoiImage)
    (hv : img.valid)
    (h255 : img.has_alpha = false → ∀ p ∈ img.pixels, p.alpha = 255)
    (hfit : QOI_HEADER_SIZE + img.width * img.height * QOI_MAX_BYTES_PER_PIXEL +
      QOI_END_MARKER_SIZE ≤ 2147483647) :
    (save_image img).length ≤ save_alloc_size img ∧
    load_image (save_image img) = Except.ok img := by
  obtain ⟨hw0, hwm, hh0, hhm, hlen, hcs, hwf⟩ := hv
  have hw32 : img.width ≤ 524288 := by
    unfold GIMP_MAX_IMAGE_SIZE at hwm
    exact hwm
  have hh32 : img.height ≤ 524288 := by
    unfold GIMP_MAX_IMAGE_SIZE at hhm
    exact hhm
  have hfit' : 14 + img.width * img.height * 5 + 8 ≤ 2147483647 := by
    unfold QOI_HEADER_SIZE at hfit
    unfold QOI_MAX_BYTES_PER_PIXEL at hfit
    unfold QOI_END_MARKER_SIZE at hfit
    exact hfit
  have hwh32 : img.width * img.height < UINT32_MOD := by
    unfold UINT32_MOD
    omega
  have hmod : img.width * img.height % UINT32_MOD = img.width * img.height :=
    Nat.mod_eq_of_lt hwh32
  have hwh0 : ¬ img.width * img.height = 0 := by
    have hpos := Nat.mul_pos hw0 hh0
    omega
  have hsv : save_image img =
      serialize_header img ++
        encodeLoop img.pixels (img.width * img.height) img.has_alpha
          (img.width * img.height) 0 qoiInitPixel (List.replicate 64 qoiZeroPixel) ++
        QOI_END_MARKER := by
    unfold save_image
    rw [hmod]
  refine ⟨?_, ?_⟩
  · have hbody := encodeLoop_length img.pixels (img.width * img.height) img.has_alpha
      (img.width * img.height) 0 qoiInitPixel (List.replicate 64 qoiZeroPixel)
    have halloc : save_alloc_size img = 14 + img.width * img.height * 5 + 8 := by
      unfold save_alloc_size
      unfold QOI_HEADER_SIZE
      unfold QOI_MAX_BYTES_PER_PIXEL
      unfold QOI_END_MARKER_SIZE
      unfold UINT32_MOD
      omega
    rw [hsv, halloc, List.length_append, List.length_append]
    have hhdr : (serialize_header img).length = 14 := rfl
    have hmark : QOI_END_MARKER.length = 8 := rfl
    rw [hhdr, hmark]
    omega
  have hdec := decode_encodeLoop img.pixels (img.width * img.height) img.has_alpha
    hlen hwf h255 (img.width * img.height) 0 qoiInitPixel
    (List.replicate 64 qoiZeroPixel) (img.width * img.height)
    (by omega) (by omega) (fun _ => rfl)
  have h14 : (serialize_header img).length = 14 := rfl
  have hm8 : QOI_END_MARKER.length = 8 := rfl
  have hlength : ¬ (save_image img).length < QOI_HEADER_SIZE := by
    unfold save_image
    simp only [List.length_append]
    unfold QOI_HEADER_SIZE
    omega
  have hb13 : byteAt (save_image img) 13 = img.colorspace := by
    have h0 : byteAt (save_image img) 13 = img.colorspace % 256 % 256 := rfl
    rw [h0]
    omega
  have hRB4 : readBE32 (save_image img) 4 = img.width := by
    have h0 : readBE32 (save_image img) 4 =
        img.width / 16777216 % 256 % 256 * 16777216 +
        img.width / 65536 % 256 % 256 * 65536 +
        img.width / 256 % 256 % 256 * 256 + img.width % 256 % 256 := rfl
    rw [h0]
    omega
  have hRB8 : readBE32 (save_image img) 8 = img.height := by
    have h0 : readBE32 (save_image img) 8 =
        img.height / 16777216 % 256 % 256 * 16777216 +
        img.height / 65536 % 256 % 256 * 65536 +
        img.height / 256 % 256 % 256 * 256 + img.height % 256 % 256 := rfl
    rw [h0]
    omega
  have hb12 : byteAt (save_image img) 12 =
      (if img.has_alpha then QOI_CHANNELS_RGBA else QOI_CHANNELS_RGB) % 256 := rfl
  have hmagic : byteAt (save_image img) 0 = 113 ∧ byteAt (save_image img) 1 = 111 ∧
      byteAt (save_image img) 2 = 105 ∧ byteAt (save_image img) 3 = 102 :=
    ⟨rfl, rfl, rfl, rfl⟩
  have hdrop14 : (save_image img).drop QOI_HEADER_SIZE =
      encodeLoop img.pixels (img.width * img.height) img.has_alpha
        (img.width * img.height) 0 qoiInitPixel (List.replicate 64 qoiZeroPixel) ++
      QOI_END_MARKER := by
    rw [hsv]
    rfl
  cases hha : img.has_alpha with
  | false =>
    rw [hha] at hb12
    have hb12f : byteAt (save_image img) 12 = 3 := by
      rw [hb12]
      rfl
    have hparse : parse_header (save_image img) =
        Except.ok ⟨false, img.colorspace, img.width, img.height⟩ := by
      unfold parse_header
      rw [if_neg hlength, if_neg (not_not_intro hmagic),
        if_neg (not_not_intro (Or.inl (by rw [hb12f]; rfl))),
        if_neg (not_not_intro (by rw [hb13]; omega)), hRB4, hRB8,
        if_neg (by omega), if_neg (by omega), hb12f, hb13]
      rfl
    unfold load_image
    rw [hparse]
    dsimp only
    rw [hmod, if_neg hwh0]
    rw [hdrop14]
    rw [hha] at hdec ⊢
    rw [hdec]
    dsimp only
    rw [if_neg (by decide : ¬ QOI_END_MARKER.length < QOI_END_MARKER_SIZE),
      if_neg (by decide : ¬ endMarkerAt QOI_END_MARKER = false),
      if_neg (by decide : ¬ QOI_END_MARKER.length ≠ QOI_END_MARKER_SIZE),
      List.drop_zero, ← hha]
  | true =>
    rw [hha] at hb12
    have hb12t : byteAt (save_image img) 12 = 4 := by
      rw [hb12]
      rfl
    have hparse : parse_header (save_image img) =
        Except.ok ⟨true, img.colorspace, img.width, img.height⟩ := by
      unfold parse_header
      rw [if_neg hlength, if_neg (not_not_intro hmagic),
        if_neg (not_not_intro (Or.inr (by rw [hb12t]; rfl))),
        if_neg (not_not_intro (by rw [hb13]; omega)), hRB4, hRB8,
        if_neg (by omega), if_neg (by omega), hb12t, hb13]
      rfl
    unfold load_image
    rw [hparse]
    dsimp only
    rw [hmod, if_neg hwh0]
    rw [hdrop14]
    rw [hha] at hdec ⊢
    rw [hdec]
    dsimp only
    rw [if_neg (by decide : ¬ QOI_END_MARKER.length < QOI_END_MARKER_SIZE),
      if_neg (by decide : ¬ endMarkerAt QOI_END_MARKER = false),
      if_neg (by decide : ¬ QOI_END_MARKER.length ≠ QOI_END_MARKER_SIZE),
      List.drop_zero, ← hha]

/-- Witness for the amended C1 at two concrete images: an alpha-present
image with varying alpha values, and an alpha-absent image with constant
alpha 255. -/
theorem c1_roundtrip_amended_witness :
    (⟨[⟨10, 20, 30, 40⟩, ⟨10, 20, 30, 40⟩, ⟨11, 21, 31, 40⟩, ⟨200, 100, 50, 255⟩],
        2, 2, 0, true⟩ : QoiImage).valid ∧
    ((save_image
        ⟨[⟨10, 20, 30, 40⟩, ⟨10, 20, 30, 40⟩, ⟨11, 21, 31, 40⟩, ⟨200, 100, 50, 255⟩],
          2, 2, 0, true⟩).length ≤
      save_alloc_size
        ⟨[⟨10, 20, 30, 40⟩, ⟨10, 20, 30, 40⟩, ⟨11, 21, 31, 40⟩, ⟨200, 100, 50, 255⟩],
          2, 2, 0, true⟩ ∧
    load_image (save_image
      ⟨[⟨10, 20, 30, 40⟩, ⟨10, 20, 30, 40⟩, ⟨11, 21, 31, 40⟩, ⟨200, 100, 50, 255⟩],
        2, 2, 0, true⟩) =
      Except.ok
        ⟨[⟨10, 20, 30, 40⟩, ⟨10, 20, 30, 40⟩, ⟨11, 21, 31, 40⟩, ⟨200, 100, 50, 255⟩],
          2, 2, 0, true⟩) ∧
    (⟨[⟨1, 2, 3, 255⟩, ⟨90, 91, 92, 255⟩], 1, 2, 1, false⟩ : QoiImage).valid ∧
    ((save_image ⟨[⟨1, 2, 3, 255⟩, ⟨90, 91, 92, 255⟩], 1, 2, 1, false⟩).length ≤
      save_alloc_size ⟨[⟨1, 2, 3, 255⟩, ⟨90, 91, 92, 255⟩], 1, 2, 1, false⟩ ∧
    load_image (save_image ⟨[⟨1, 2, 3, 255⟩, ⟨90, 91, 92, 255⟩], 1, 2, 1, false⟩) =
      Except.ok ⟨[⟨1, 2, 3, 255⟩, ⟨90, 91, 92, 255⟩], 1, 2, 1, false⟩) := by
  refine ⟨by decide, ?_, by decide, ?_⟩
  · exact c1_roundtrip_amended _ (by decide)
      (fun hc => absurd hc (by decide)) (by decide)
  · exact c1_roundtrip_amended _ (by decide) (fun _ => by decide) (by decide)
